import Mathlib

/-!
Verification of the Hugine chess engine core (src/hugine.cpp) against its
natural-language specification.

The definitions below are a shallow embedding of the C++ source, translated
function by function.  Bitboards are `Nat` values below `2 ^ 64` (the C++
`U64`); the mailbox `board[64]` is a `List Nat`; squares inside move encodings
are `Nat` (they are 6-bit fields), while square-valued *state* that can hold
the `-1` sentinel (`ep_square`, `castle_rook_sq`) is `Int`, as in the source
where `Square = int`.  Zobrist keys (produced by `std::mt19937_64` at startup)
are kept abstract as a parameter structure `ZKeys`: every hash computation is
parametric in the key family, exactly as the engine's behaviour is.
-/

/-! ## Constants (hugine.cpp lines 126-174) -/

def WHITE : Nat := 0

def BLACK : Nat := 1

def NO_PIECE : Nat := 0

def PAWN : Nat := 1

def KNIGHT : Nat := 2

def BISHOP : Nat := 3

def ROOK : Nat := 4

def QUEEN : Nat := 5

def KING : Nat := 6

def BOUND_NONE : Nat := 0

def BOUND_UPPER : Nat := 1

def BOUND_LOWER : Nat := 2

def BOUND_EXACT : Nat := 3

def NO_MOVE : Nat := 0

def NULL_MOVE : Nat := 0xFFFFFFFF

def MAX_PLY : Int := 128

def MAX_QSEARCH_DEPTH : Int := 8

def MATE_SCORE : Int := 32000

def INF_SCORE : Int := 32001

def MATE_OFFSET : Int := 20000

def SINGULAR_EXTENSION_DEPTH : Int := 8

def SINGULAR_MARGIN : Int := 50

def FUTILITY_MARGIN_FACTOR : Int := 200

def SEE_QUIET_MARGIN : Int := -80

def LMP_BASE : Nat := 3

def LMP_FACTOR : Nat := 2

def RAZOR_MARGIN_D1 : Int := 300

def RAZOR_MARGIN_D2 : Int := 400

def RAZOR_MARGIN_D3 : Int := 600

def PROBCUT_DEPTH : Int := 5

def IID_DEPTH : Int := 5

def IID_REDUCTION : Int := 2

def NULL_MOVE_R : Int := 2

def LMR_BASE : Int := 1

def LMR_DIV : Int := 2

def PIECE_VALUES : List Int := [0, 100, 320, 330, 500, 900, 0]

def pieceValue (pt : Nat) : Int := PIECE_VALUES.getD pt 0

def PHASE_KNIGHT : Int := 1

def PHASE_BISHOP : Int := 1

def PHASE_ROOK : Int := 2

def PHASE_QUEEN : Int := 4

def TOTAL_PHASE : Int := 24

/-! ## Bit utilities (hugine.cpp lines 176-213) -/

/-- `1ULL << s`. -/
def bitAt (s : Nat) : Nat := 1 <<< s

/-- The all-ones 64-bit word; `x &&& (U64MASK ^^^ b)` is the C++ `x & ~b` on
`U64` values. -/
def U64MASK : Nat := 0xFFFFFFFFFFFFFFFF

/-- `__builtin_popcountll` on a 64-bit word. -/
def popcount (b : Nat) : Nat := ((List.range 64).filter (fun i => b.testBit i)).length

/-- `__builtin_ctzll`: index of the least significant set bit.  The source
asserts `b != 0`; on `0` this returns 64 (one past the last bit). -/
def lsbIdx (b : Nat) : Nat := (List.range 64).findIdx (fun i => b.testBit i)

/-- The sequence of squares a `while (bb) pop_lsb(bb)` loop visits: the set
bits of the 64-bit word `b` in increasing order (pop_lsb always removes the
least significant bit first). -/
def serializeBB (b : Nat) : List Nat := (List.range 64).filter (fun i => b.testBit i)

/-- `make_square(f, r) = r * 8 + f`. -/
def mkSquare (f r : Nat) : Nat := r * 8 + f

def fileOf (s : Nat) : Nat := s &&& 7

def rankOf (s : Nat) : Nat := s >>> 3

/-- `make_square` on `int` coordinates (used where the source walks rays with
signed deltas). -/
def mkSquareI (f r : Int) : Int := r * 8 + f

/-! ## Move encoding (hugine.cpp lines 176-209) -/

def fromSq (m : Nat) : Nat := (m >>> 6) &&& 63

def toSq (m : Nat) : Nat := m &&& 63

def mkMove (f t : Nat) : Nat := (f <<< 6) ||| t

def PROMO_MASK : Nat := 0xF000

def PROMO_KNIGHT : Nat := 0x1000

def PROMO_BISHOP : Nat := 0x2000

def PROMO_ROOK : Nat := 0x3000

def PROMO_QUEEN : Nat := 0x4000

def CASTLE_FLAG : Nat := 0x5000

def ENPASSANT_FLAG : Nat := 0x6000

def mkPromotion (f t : Nat) (pt : Nat) : Nat :=
  if pt = KNIGHT then (f <<< 6) ||| t ||| PROMO_KNIGHT
  else if pt = BISHOP then (f <<< 6) ||| t ||| PROMO_BISHOP
  else if pt = ROOK then (f <<< 6) ||| t ||| PROMO_ROOK
  else (f <<< 6) ||| t ||| PROMO_QUEEN

def promotionType (m : Nat) : Nat :=
  let flag := m &&& PROMO_MASK
  if flag = PROMO_KNIGHT then KNIGHT
  else if flag = PROMO_BISHOP then BISHOP
  else if flag = PROMO_ROOK then ROOK
  else if flag = PROMO_QUEEN then QUEEN
  else NO_PIECE

def isCastling (m : Nat) : Bool := (m &&& PROMO_MASK) = CASTLE_FLAG

def isEnPassant (m : Nat) : Bool := (m &&& PROMO_MASK) = ENPASSANT_FLAG

/-! ## Transposition table (hugine.cpp lines 1908-1967)

The C++ table is a `std::vector<TTEntry>` of `size` buckets indexed by
`key % size`, guarded by a `shared_mutex`; the lock only serializes access and
plays no part in the sequential semantics, so the embedding is a function from
bucket index to entry plus the table's current `age`. -/

structure TTEntry where
  key : Nat
  depth : Int
  score : Int
  bound : Nat
  move : Nat
  age : Int
  dtz : Int
deriving DecidableEq

/-- A default-constructed entry (`table.resize(size)` value-initializes). -/
def TTEntry.empty : TTEntry := ⟨0, 0, 0, BOUND_NONE, NO_MOVE, 0, 0⟩

structure TTable where
  table : Nat → TTEntry
  size : Nat
  age : Int

/-- `TranspositionTable::store` (lines 1942-1948): replace the bucket at
`key % size` unless the resident entry has the same key and strictly greater
depth. -/
def TTable.store (t : TTable) (key : Nat) (depth : Int) (score : Int)
    (bound : Nat) (move : Nat) (dtz : Int) : TTable :=
  -- idx = key % size; e = table[idx] (the C++ binds a reference, inlined here)
  if (t.table (key % t.size)).key = key ∧ (t.table (key % t.size)).depth > depth then t
  else { t with table := fun i =>
          if i = key % t.size then ⟨key, depth, score, bound, move, t.age, dtz⟩
          else t.table i }

/-- `TranspositionTable::probe` (lines 1949-1966).  The C++ signature writes
through out-parameters `score`, `move`, `dtz`; the embedding threads their
incoming values `score0`, `move0`, `dtz0` explicitly and returns the tuple
`(hit, score, move, dtz)` of their values when probe returns. -/
def TTable.probe (t : TTable) (key : Nat) (depth alpha beta : Int)
    (score0 : Int) (move0 : Nat) (dtz0 : Int) : Bool × Int × Nat × Int :=
  -- e = table[key % size] (the C++ binds a reference, written out here)
  if (t.table (key % t.size)).key ≠ key then (false, score0, move0, dtz0)
  else
    -- move, dtz and score are written before the depth/bound tests
    if (t.table (key % t.size)).depth ≥ depth then
      if (t.table (key % t.size)).bound = BOUND_EXACT then
        (true, (t.table (key % t.size)).score, (t.table (key % t.size)).move,
         (t.table (key % t.size)).dtz)
      else if (t.table (key % t.size)).bound = BOUND_LOWER ∧
              (t.table (key % t.size)).score ≥ beta then
        (true, (t.table (key % t.size)).score, (t.table (key % t.size)).move,
         (t.table (key % t.size)).dtz)
      else if (t.table (key % t.size)).bound = BOUND_UPPER ∧
              (t.table (key % t.size)).score ≤ alpha then
        (true, (t.table (key % t.size)).score, (t.table (key % t.size)).move,
         (t.table (key % t.size)).dtz)
      else
        (false, (t.table (key % t.size)).score, (t.table (key % t.size)).move,
         (t.table (key % t.size)).dtz)
    else
      (false, (t.table (key % t.size)).score, (t.table (key % t.size)).move,
       (t.table (key % t.size)).dtz)

/-! ## Attack tables (hugine.cpp lines 233-268, 446-468)

`Bitboards::init` fills fixed arrays once at startup; the embedding computes
the same sets on demand.  The sliding attacks are the classical ray scans
`rook_attacks_magic` / `bishop_attacks_magic` (lines 446-468) that the engine
actually calls; the magic tables are initialised but unused. -/

def knightOffsets : List (Int × Int) :=
  [(-2, -1), (-2, 1), (-1, -2), (-1, 2), (1, -2), (1, 2), (2, -1), (2, 1)]

def knightAttacks (s : Nat) : Nat :=
  let f : Int := fileOf s
  let r : Int := rankOf s
  knightOffsets.foldl (fun acc d =>
    let nf := f + d.1
    let nr := r + d.2
    if 0 ≤ nf ∧ nf < 8 ∧ 0 ≤ nr ∧ nr < 8 then acc ||| bitAt (mkSquareI nf nr).toNat
    else acc) 0

def kingOffsets : List (Int × Int) :=
  [(-1, -1), (-1, 0), (-1, 1), (0, -1), (0, 1), (1, -1), (1, 0), (1, 1)]

def kingAttacks (s : Nat) : Nat :=
  let f : Int := fileOf s
  let r : Int := rankOf s
  kingOffsets.foldl (fun acc d =>
    let nf := f + d.1
    let nr := r + d.2
    if 0 ≤ nf ∧ nf < 8 ∧ 0 ≤ nr ∧ nr < 8 then acc ||| bitAt (mkSquareI nf nr).toNat
    else acc) 0

def pawnAttacks (c : Nat) (s : Nat) : Nat :=
  let f := fileOf s
  let r := rankOf s
  if c = WHITE then
    (if r < 7 ∧ f > 0 then bitAt (mkSquare (f - 1) (r + 1)) else 0) |||
    (if r < 7 ∧ f < 7 then bitAt (mkSquare (f + 1) (r + 1)) else 0)
  else
    (if r > 0 ∧ f > 0 then bitAt (mkSquare (f - 1) (r - 1)) else 0) |||
    (if r > 0 ∧ f < 7 then bitAt (mkSquare (f + 1) (r - 1)) else 0)

/-- One ray of a classical sliding-attack scan: step `(df, dr)` from `(f, r)`,
accumulating squares until the edge of the board or the first occupied square
(which is included, then the scan stops). -/
def rayScan (occ : Nat) : Nat → Int → Int → Int → Int → Nat
  | 0, _, _, _, _ => 0
  | fuel + 1, f, r, df, dr =>
    let nf := f + df
    let nr := r + dr
    if nf < 0 ∨ 7 < nf ∨ nr < 0 ∨ 7 < nr then 0
    else
      let b := bitAt (mkSquareI nf nr).toNat
      if occ &&& b ≠ 0 then b else b ||| rayScan occ fuel nf nr df dr

/-- `rook_attacks_magic` (lines 446-454): classical four-ray scan. -/
def rookAttacksMagic (s : Nat) (occ : Nat) : Nat :=
  let f : Int := fileOf s
  let r : Int := rankOf s
  rayScan occ 8 f r 0 1 ||| rayScan occ 8 f r 0 (-1) |||
  rayScan occ 8 f r 1 0 ||| rayScan occ 8 f r (-1) 0

/-- `bishop_attacks_magic` (lines 456-464): classical four-diagonal scan. -/
def bishopAttacksMagic (s : Nat) (occ : Nat) : Nat :=
  let f : Int := fileOf s
  let r : Int := rankOf s
  rayScan occ 8 f r 1 1 ||| rayScan occ 8 f r (-1) 1 |||
  rayScan occ 8 f r 1 (-1) ||| rayScan occ 8 f r (-1) (-1)

def queenAttacksMagic (s : Nat) (occ : Nat) : Nat :=
  rookAttacksMagic s occ ||| bishopAttacksMagic s occ

/-! ## Zobrist keys (hugine.cpp lines 471-490)

The keys are drawn once from `std::mt19937_64(0xDEADBEEF)`; their exact values
never matter to any claim, so the embedding is parametric in the key family. -/

structure ZKeys where
  pieces : Nat → Nat → Nat → Nat
  side : Nat
  castle : Nat → Nat
  ep : Nat → Nat

/-- An all-zero key family, used to run the embedding on concrete positions. -/
def zeroKeys : ZKeys := ⟨fun _ _ _ => 0, 0, fun _ => 0, fun _ => 0⟩

/-! ## Position (hugine.cpp lines 493-1014) -/

structure Position where
  pieces : Nat → Nat → Nat
  board : List Nat
  side : Nat
  occupied : Nat
  fifty : Int
  ply : Int
  gamePly : Int
  epSquare : Int
  castleRookSq : Nat → Nat → Int
  chess960 : Bool
  hash : Nat
  history : List Nat

def Position.boardGet (p : Position) (s : Nat) : Nat := p.board.getD s 0

def Position.setBoard (p : Position) (s : Nat) (v : Nat) : Position :=
  { p with board := p.board.set s v }

def Position.xorPieces (p : Position) (c pt : Nat) (b : Nat) : Position :=
  { p with pieces := fun c' pt' =>
      if c' = c ∧ pt' = pt then p.pieces c' pt' ^^^ b else p.pieces c' pt' }

def Position.orPieces (p : Position) (c pt : Nat) (b : Nat) : Position :=
  { p with pieces := fun c' pt' =>
      if c' = c ∧ pt' = pt then p.pieces c' pt' ||| b else p.pieces c' pt' }

def Position.setCastle (p : Position) (c s : Nat) (v : Int) : Position :=
  { p with castleRookSq := fun c' s' =>
      if c' = c ∧ s' = s then v else p.castleRookSq c' s' }

/-- `update_occupied` (lines 527-532): `occupied = ⋃_{c, pt ∈ PAWN..KING}`. -/
def Position.updateOccupied (p : Position) : Position :=
  { p with occupied := (List.range 2).foldl (fun acc c =>
      (List.range 6).foldl (fun acc i => acc ||| p.pieces c (i + 1)) acc) 0 }

/-- `compute_hash` (lines 696-715). -/
def Position.computeHash (p : Position) (z : ZKeys) : Position :=
  let h := (List.range 2).foldl (fun h c =>
      (List.range 6).foldl (fun h i =>
        (serializeBB (p.pieces c (i + 1))).foldl
          (fun h sq => h ^^^ z.pieces c (i + 1) sq) h) h) 0
  let h := if p.side = BLACK then h ^^^ z.side else h
  let mask := (if p.castleRookSq WHITE 0 ≠ -1 then 1 else 0)
          ||| (if p.castleRookSq WHITE 1 ≠ -1 then 2 else 0)
          ||| (if p.castleRookSq BLACK 0 ≠ -1 then 4 else 0)
          ||| (if p.castleRookSq BLACK 1 ≠ -1 then 8 else 0)
  let h := h ^^^ z.castle mask
  let h := if p.epSquare ≠ -1 then h ^^^ z.ep p.epSquare.toNat else h
  { p with hash := h }

def Position.pushHash (p : Position) : Position :=
  { p with history := p.history ++ [p.hash] }

def Position.popHash (p : Position) : Position :=
  { p with history := p.history.dropLast }

/-- Loop body of `is_repetition` (lines 717-724): walk `i` from
`history.size() - 2` downward in steps of 2 while `i ≥ 0 ∧ c < count`. -/
def isRepAux (hist : List Nat) (hsh : Nat) (count : Int) : Nat → Int → Int → Bool
  | 0, _, _ => false
  | fuel + 1, i, c =>
    if 0 ≤ i ∧ c < count then
      let c' := if hist.getD i.toNat 0 = hsh then c + 1 else c
      if c' ≥ count then true else isRepAux hist hsh count fuel (i - 2) c'
    else false

def Position.isRepetition (p : Position) (count : Int) : Bool :=
  isRepAux p.history p.hash count (p.history.length + 1) ((p.history.length : Int) - 2) 0

/-- `attacks_to(s, occ)` (lines 729-740). -/
def Position.attacksTo (p : Position) (s : Nat) (occ : Nat) : Nat :=
  let a := pawnAttacks BLACK s &&& p.pieces WHITE PAWN
  let a := a ||| (pawnAttacks WHITE s &&& p.pieces BLACK PAWN)
  let a := a ||| (knightAttacks s &&& (p.pieces WHITE KNIGHT ||| p.pieces BLACK KNIGHT))
  let bishops := p.pieces WHITE BISHOP ||| p.pieces BLACK BISHOP |||
                 p.pieces WHITE QUEEN ||| p.pieces BLACK QUEEN
  let a := a ||| (bishopAttacksMagic s occ &&& bishops)
  let rooks := p.pieces WHITE ROOK ||| p.pieces BLACK ROOK |||
               p.pieces WHITE QUEEN ||| p.pieces BLACK QUEEN
  let a := a ||| (rookAttacksMagic s occ &&& rooks)
  a ||| (kingAttacks s &&& (p.pieces WHITE KING ||| p.pieces BLACK KING))

/-- `is_check` (lines 741-746): the own king's square is attacked by a piece
that is not one of our own. -/
def Position.isCheck (p : Position) : Bool :=
  if p.pieces p.side KING = 0 then false
  else
    let ksq := lsbIdx (p.pieces p.side KING)
    let own := p.pieces p.side PAWN ||| p.pieces p.side KNIGHT ||| p.pieces p.side BISHOP |||
               p.pieces p.side ROOK ||| p.pieces p.side QUEEN ||| p.pieces p.side KING
    (p.attacksTo ksq p.occupied &&& (U64MASK ^^^ own)) ≠ 0

/-- `is_attacked(s, by)` (lines 747-753). -/
def Position.isAttacked (p : Position) (s : Nat) (by_ : Nat) : Bool :=
  let byPieces := (List.range 6).foldl (fun acc i => acc ||| p.pieces by_ (i + 1)) 0
  (p.attacksTo s p.occupied &&& byPieces) ≠ 0

/-- `game_phase` (lines 754-763). -/
def Position.gamePhase (p : Position) : Int :=
  let phase := (List.range 2).foldl (fun acc c =>
    acc + (popcount (p.pieces c KNIGHT) : Int) * PHASE_KNIGHT
        + (popcount (p.pieces c BISHOP) : Int) * PHASE_BISHOP
        + (popcount (p.pieces c ROOK) : Int) * PHASE_ROOK
        + (popcount (p.pieces c QUEEN) : Int) * PHASE_QUEEN) 0
  min phase TOTAL_PHASE

def Position.isEndgame (p : Position) : Bool := p.gamePhase < 12

/-- `king_square` (lines 767-770): `-1` when the king is missing. -/
def Position.kingSquare (p : Position) (c : Nat) : Int :=
  if p.pieces c KING = 0 then -1 else (lsbIdx (p.pieces c KING) : Int)

/-- `mover_in_check` (lines 1006-1011): after a speculative make, is the side
that just moved still in check? -/
def Position.moverInCheck (p : Position) : Bool :=
  let prev := p.side ^^^ 1
  if p.pieces prev KING = 0 then false
  else p.isAttacked (lsbIdx (p.pieces prev KING)) p.side

/-- `castling_rights` (lines 987-997): four 7-bit slots of `square + 1`. -/
def Position.castlingRights (p : Position) : Nat :=
  let enc := fun (sq : Int) => (sq + 1).toNat &&& 0x7F
  enc (p.castleRookSq WHITE 0)
    ||| (enc (p.castleRookSq WHITE 1) <<< 7)
    ||| (enc (p.castleRookSq BLACK 0) <<< 14)
    ||| (enc (p.castleRookSq BLACK 1) <<< 21)

/-- `restore_castling_rights` (lines 999-1005). -/
def Position.restoreCastlingRights (p : Position) (packed : Nat) : Position :=
  let dec := fun (v : Nat) => ((v &&& 0x7F : Nat) : Int) - 1
  { p with castleRookSq := fun c s =>
      if c = WHITE ∧ s = 0 then dec packed
      else if c = WHITE ∧ s = 1 then dec (packed >>> 7)
      else if c = BLACK ∧ s = 0 then dec (packed >>> 14)
      else if c = BLACK ∧ s = 1 then dec (packed >>> 21)
      else p.castleRookSq c s }

/-! ## Static exchange evaluation (hugine.cpp lines 772-841) -/

/-- The gain-stack rollback of `see` (lines 836-839):
`while (d > 0) { gain[d-1] = -max(-gain[d-1], gain[d]); d--; }` with the list
holding `gain[d], gain[d-1], …, gain[0]`. -/
def seeRollback : List Int → Int
  | [] => 0
  | [g0] => g0
  | gd :: g1 :: rest => seeRollback ((-(max (-g1) gd)) :: rest)
termination_by l => l.length

/-- The capture-exchange loop of `see` (lines 812-833): each iteration finds
the side-to-move's cheapest attacker of `to` under the current occupancy,
pushes the value of the piece standing on `to`, and swaps sides.  The fuel
(32 in the source's `gain[32]`) bounds the number of recaptures. -/
def seeLoop (p : Position) (toS : Nat) :
    Nat → Nat → Nat → Nat → List Int → List Int
  | 0, _, _, _, gains => gains
  | fuel + 1, occ, pieceOnSq, stm, gains =>
    let att := p.attacksTo toS occ
    let found := (List.range 6).foldl (fun acc i =>
        match acc with
        | some _ => acc
        | none =>
          let pt := i + 1
          let attackers := p.pieces stm pt &&& occ &&& att
          if attackers ≠ 0 then some (pt, lsbIdx attackers) else none) none
    match found with
    | none => gains
    | some (pt, sq) =>
      let g := pieceValue pieceOnSq - gains.headD 0
      seeLoop p toS fuel (occ &&& (U64MASK ^^^ bitAt sq)) pt (stm ^^^ 1) (g :: gains)

/-- `Position::see(m)` (lines 772-841). -/
def Position.see (p : Position) (m : Nat) : Int :=
  if m = NULL_MOVE then 0
  else
    let fromS := fromSq m
    let toS := toSq m
    let us := p.side
    let ep := isEnPassant m
    let promo := promotionType m ≠ NO_PIECE
    let promType := promotionType m
    let occ := p.occupied &&& (U64MASK ^^^ bitAt fromS)
    let vicOcc : Nat × Nat :=
      if ep then
        let epCap := ((toS : Int) + (if us = WHITE then -8 else 8)).toNat
        (PAWN, occ &&& (U64MASK ^^^ bitAt epCap))
      else
        let captured := p.boardGet toS
        if captured ≠ 0 then (captured &&& 7, occ &&& (U64MASK ^^^ bitAt toS))
        else (0, occ)
    let victimType := vicOcc.1
    let occ := vicOcc.2
    let pieceOnSq := if promo then promType else p.boardGet fromS &&& 7
    let occ := occ ||| bitAt toS
    if victimType = 0 then 0
    else
      let gains := seeLoop p toS 32 occ pieceOnSq (us ^^^ 1) [pieceValue victimType]
      seeRollback gains

/-! ## make_move / undo_move (hugine.cpp lines 848-977) -/

/-- `make_move(m)` (lines 848-918). -/
def Position.makeMove (z : ZKeys) (p : Position) (m : Nat) : Position :=
  if m = NULL_MOVE then
    let p1 := { p with side := p.side ^^^ 1, ply := p.ply + 1 }
    let p2 := if p1.side = WHITE then { p1 with gamePly := p1.gamePly + 1 } else p1
    (p2.pushHash).computeHash z
  else
    let fromS := fromSq m
    let toS := toSq m
    let pc := p.boardGet fromS
    let pt := pc &&& 7
    let us := p.side
    let them := us ^^^ 1
    let captured := p.boardGet toS
    -- _pieces[us][pt] ^= 1ULL << from; board[from] = 0;
    let p1 := (p.xorPieces us pt (bitAt fromS)).setBoard fromS 0
    let stepA : Position × Nat :=
      if isCastling m then
        let sideIdx := if toS > fromS then 0 else 1
        let rookSq := p1.castleRookSq us sideIdx
        let castlingRankMk := if us = WHITE then 0 else 7
        let rookDest := mkSquare (if sideIdx = 0 then 5 else 3) castlingRankMk
        let q := (p1.xorPieces us ROOK (bitAt rookSq.toNat)).orPieces us ROOK (bitAt rookDest)
        let q := (q.setBoard rookSq.toNat 0).setBoard rookDest ((us <<< 3) ||| ROOK)
        (q.setCastle us sideIdx (-1), captured)
      else if isEnPassant m then
        let epCap := ((toS : Int) + (if us = WHITE then -8 else 8)).toNat
        let epPc := p1.boardGet epCap
        let q := if epPc ≠ 0 then
            (p1.xorPieces them (epPc &&& 7) (bitAt epCap)).setBoard epCap 0
          else p1
        (q, epPc)
      else (p1, captured)
    let p2 := stepA.1
    let captured := stepA.2
    -- _pieces[us][pt] |= 1ULL << to; board[to] = pc;
    let p3 := (p2.orPieces us pt (bitAt toS)).setBoard toS pc
    let p4 := if captured ≠ 0 ∧ ¬ isEnPassant m ∧ ¬ isCastling m then
        p3.xorPieces them (captured &&& 7) (bitAt toS)
      else p3
    let p5 := if promotionType m ≠ NO_PIECE then
        let prom := promotionType m
        ((p4.xorPieces us pt (bitAt toS)).orPieces us prom (bitAt toS)).setBoard toS
          ((us <<< 3) ||| prom)
      else p4
    let p6 := if pt = KING then (p5.setCastle us 0 (-1)).setCastle us 1 (-1) else p5
    -- for (s = 0; s < 2; ++s): clear any slot that names the origin square
    let clr := fun (q : Position) (c s : Nat) =>
      if (fromS : Int) = q.castleRookSq c s then q.setCastle c s (-1) else q
    let p7 := clr (clr (clr (clr p6 us 0) them 0) us 1) them 1
    let p8 := { p7 with epSquare :=
        if pt = PAWN ∧ ((toS : Int) - (fromS : Int)).natAbs = 16 then
          (if us = WHITE then (fromS : Int) + 8 else (fromS : Int) - 8)
        else -1 }
    let p9 := { p8 with fifty := if captured ≠ 0 ∨ pt = PAWN then 0 else p8.fifty + 1 }
    let p10 := p9.updateOccupied
    let p11 := { p10 with side := them, ply := p10.ply + 1 }
    let p12 := if p11.side = WHITE then { p11 with gamePly := p11.gamePly + 1 } else p11
    (p12.pushHash).computeHash z

/-- `gives_check(m)` (lines 842-846): speculative make, then `is_check`. -/
def Position.givesCheck (z : ZKeys) (p : Position) (m : Nat) : Bool :=
  (p.makeMove z m).isCheck

/-- `undo_null_move` (lines 920-926). -/
def Position.undoNullMove (z : ZKeys) (p : Position) : Position :=
  let p1 := { p with side := p.side ^^^ 1, ply := p.ply - 1 }
  let p2 := if p1.side = BLACK then { p1 with gamePly := p1.gamePly - 1 } else p1
  (p2.popHash).computeHash z

/-- `undo_move(m, captured, old_castle, old_ep, old_fifty)` (lines 928-977). -/
def Position.undoMove (z : ZKeys) (p : Position) (m : Nat) (captured : Nat)
    (oldCastle : Nat) (oldEp : Int) (oldFifty : Int) : Position :=
  if m = NULL_MOVE then p.undoNullMove z
  else
    let p0 := { p with side := p.side ^^^ 1 }
    let fromS := fromSq m
    let toS := toSq m
    let pc := p0.boardGet toS
    let pt := pc &&& 7
    let us := p0.side
    let p1 := (p0.xorPieces us pt (bitAt toS)).setBoard toS captured
    let p2 := (p1.orPieces us pt (bitAt fromS)).setBoard fromS ((us <<< 3) ||| pt)
    let p3 := if captured ≠ 0 ∧ ¬ isEnPassant m ∧ ¬ isCastling m then
        p2.orPieces (us ^^^ 1) (captured &&& 7) (bitAt toS)
      else p2
    let p4 :=
      if isCastling m then
        let sideIdx := if toS > fromS then 0 else 1
        let dec := fun (v : Nat) => ((v &&& 0x7F : Nat) : Int) - 1
        let origRookSq :=
          if us = BLACK then
            (if sideIdx = 0 then dec (oldCastle >>> 14) else dec (oldCastle >>> 21))
          else (if sideIdx = 0 then dec oldCastle else dec (oldCastle >>> 7))
        let castlingRank := if us = WHITE then 0 else 7
        let rookDest := mkSquare (if sideIdx = 0 then 5 else 3) castlingRank
        let q := (p3.xorPieces us ROOK (bitAt rookDest)).orPieces us ROOK
                   (bitAt origRookSq.toNat)
        (q.setBoard rookDest 0).setBoard origRookSq.toNat ((us <<< 3) ||| ROOK)
      else if isEnPassant m then
        let epCap := ((toS : Int) + (if us = WHITE then -8 else 8)).toNat
        (p3.orPieces (us ^^^ 1) PAWN (bitAt epCap)).setBoard epCap
          (((us ^^^ 1) <<< 3) ||| PAWN)
      else p3
    let p5 := if promotionType m ≠ NO_PIECE then
        ((p4.xorPieces us (promotionType m) (bitAt fromS)).orPieces us PAWN
          (bitAt fromS)).setBoard fromS ((us <<< 3) ||| PAWN)
      else p4
    let p6 := p5.restoreCastlingRights oldCastle
    let p7 := { p6 with epSquare := oldEp, fifty := oldFifty }
    let p8 := p7.updateOccupied
    let p9 := { p8 with ply := p8.ply - 1 }
    let p10 := if p9.side = BLACK then { p9 with gamePly := p9.gamePly - 1 } else p9
    (p10.popHash).computeHash z

/-! ## Move generation (hugine.cpp lines 1017-1192) -/

/-- One piece's contribution to `generate_moves`: captures against
`their_pieces_no_king`, then (unless `captures_only`) quiets into `empty`.
The `while (caps) pop_lsb` loops emit destinations in ascending square
order, which is exactly `serializeBB`. -/
def pieceBlockMoves (capturesOnly : Bool) (fromS : Nat) (attacks theirNoKing emptyBB : Nat) :
    List Nat :=
  let caps := (serializeBB (attacks &&& theirNoKing)).map (mkMove fromS)
  if capturesOnly then caps
  else caps ++ (serializeBB (attacks &&& emptyBB)).map (mkMove fromS)

/-- A pawn's forward pushes (lines 1105-1118): single push, push-promotions,
and the double push from the starting rank; emitted only when not
`captures_only`.  The source's locals `forward` and `promo_rank` are passed as
parameters so that proofs can treat them abstractly. -/
def pawnPushesAux (p : Position) (capturesOnly : Bool) (us fromS : Nat) (forward : Int)
    (promoRank : Nat) : List Nat :=
  if ¬ capturesOnly ∧ 0 ≤ (fromS : Int) + forward ∧ (fromS : Int) + forward < 64 ∧
      p.boardGet ((fromS : Int) + forward).toNat = 0 then
    if promoRank &&& bitAt ((fromS : Int) + forward).toNat ≠ 0 then
      [mkPromotion fromS ((fromS : Int) + forward).toNat QUEEN,
       mkPromotion fromS ((fromS : Int) + forward).toNat ROOK,
       mkPromotion fromS ((fromS : Int) + forward).toNat BISHOP,
       mkPromotion fromS ((fromS : Int) + forward).toNat KNIGHT]
    else
      mkMove fromS ((fromS : Int) + forward).toNat ::
      (if (us = WHITE ∧ rankOf fromS = 1) ∨ (us = BLACK ∧ rankOf fromS = 6) then
        if p.boardGet ((fromS : Int) + 2 * forward).toNat = 0 then
          [mkMove fromS ((fromS : Int) + 2 * forward).toNat]
        else []
       else [])
  else []

def pawnPushes (p : Position) (capturesOnly : Bool) (us fromS : Nat) : List Nat :=
  pawnPushesAux p capturesOnly us fromS (if us = WHITE then 8 else -8)
    (if us = WHITE then 0xFF00000000000000 else 0xFF)

/-- A pawn's diagonal captures, with capture-promotions (lines 1119-1130). -/
def pawnCapsAux (us fromS tnk promoRank : Nat) : List Nat :=
  (serializeBB (pawnAttacks us fromS &&& tnk)).flatMap (fun toCap =>
    if promoRank &&& bitAt toCap ≠ 0 then
      [mkPromotion fromS toCap QUEEN, mkPromotion fromS toCap ROOK,
       mkPromotion fromS toCap BISHOP, mkPromotion fromS toCap KNIGHT]
    else [mkMove fromS toCap])

def pawnCaps (us fromS tnk : Nat) : List Nat :=
  pawnCapsAux us fromS tnk (if us = WHITE then 0xFF00000000000000 else 0xFF)

/-- A pawn's en-passant capture (lines 1131-1134), emitted in both modes. -/
def pawnEp (p : Position) (us fromS : Nat) : List Nat :=
  if p.epSquare ≠ -1 ∧ pawnAttacks us fromS &&& bitAt p.epSquare.toNat ≠ 0 then
    [mkMove fromS p.epSquare.toNat ||| ENPASSANT_FLAG]
  else []

/-- One pawn's contribution: pushes (single, double, push-promotions) when not
`captures_only`, then diagonal captures (with capture-promotions), then
en-passant (lines 1099-1135). -/
def pawnBlockMoves (p : Position) (capturesOnly : Bool) (us : Nat) (fromS : Nat)
    (theirNoKing : Nat) : List Nat :=
  pawnPushes p capturesOnly us fromS ++ pawnCaps us fromS theirNoKing ++
  pawnEp p us fromS

/-- The squares strictly between two squares of the same rank, in any order
(the C++ castling loops visit them in step order and AND all conditions, so
only the set matters). -/
def betweenSquares (a b : Nat) : List Nat :=
  if a < b then (List.range 64).filter (fun s => a < s ∧ s < b)
  else (List.range 64).filter (fun s => b < s ∧ s < a)

/-- The path checks and emission of one castling candidate (lines 1155-1189):
the king's path must be empty-or-the-castling-rook and unattacked, the rook's
path empty apart from the king's origin, and the king not in check at the
start.  The squares and sides are parameters so that proofs can treat them
abstractly. -/
def castleSideAux (p : Position) (them ksq rookSq kingDest rookDest : Nat) : List Nat :=
  if ((if kingDest ≠ ksq then
        (betweenSquares ksq kingDest).all
          (fun s => decide (p.boardGet s = 0 ∨ s = rookSq) && !p.isAttacked s them)
        && decide (p.boardGet kingDest = 0 ∨ kingDest = rookSq)
        && !p.isAttacked kingDest them
      else true)
      && (if rookDest ≠ rookSq then
        (betweenSquares rookSq rookDest).all
          (fun s => decide (s = ksq) || decide (p.boardGet s = 0))
      else true)
      && !p.isAttacked ksq them) = true then
    [mkMove ksq kingDest ||| CASTLE_FLAG]
  else []

/-- Castling generation for one side index (lines 1138-1189): slot present,
rook still on the slot square, rook on the expected side of the king, then
the path checks of `castleSideAux`. -/
def castleSideMoves (p : Position) (us them ksq : Nat) (sideIdx : Nat) : List Nat :=
  if p.castleRookSq us sideIdx = -1 then []
  else if p.pieces us ROOK &&& bitAt (p.castleRookSq us sideIdx).toNat = 0 then []
  else if ¬ (if sideIdx = 0 then (p.castleRookSq us sideIdx).toNat > ksq
             else (p.castleRookSq us sideIdx).toNat < ksq) then []
  else
    castleSideAux p them ksq (p.castleRookSq us sideIdx).toNat
      (mkSquare (if sideIdx = 0 then 6 else 2) (if us = WHITE then 0 else 7))
      (mkSquare (if sideIdx = 0 then 5 else 3) (if us = WHITE then 0 else 7))

/-- Castling generation (lines 1137-1190): the `for side_idx in {0, 1}` loop. -/
def castleMovesGen (p : Position) (us them ksq : Nat) : List Nat :=
  ([0, 1] : List Nat).flatMap (castleSideMoves p us them ksq)

/-- `their_pieces_no_king` (lines 1021-1022): every enemy piece except the
king — the generator never targets the enemy king. -/
def theirPiecesNoKing (p : Position) : Nat :=
  p.pieces (p.side ^^^ 1) PAWN ||| p.pieces (p.side ^^^ 1) KNIGHT |||
  p.pieces (p.side ^^^ 1) BISHOP ||| p.pieces (p.side ^^^ 1) ROOK |||
  p.pieces (p.side ^^^ 1) QUEEN

/-- `generate_moves(pos, moves, captures_only)` (lines 1017-1192), as the list
of moves written to the buffer, in emission order: knights, bishops, rooks,
queens, king, pawns, castling.  `us = side`, `them = us ^ 1`,
`empty = ~occupied`. -/
def generateMoves (p : Position) (capturesOnly : Bool) : List Nat :=
  (serializeBB (p.pieces p.side KNIGHT)).flatMap
    (fun fromS => pieceBlockMoves capturesOnly fromS (knightAttacks fromS)
      (theirPiecesNoKing p) (U64MASK ^^^ p.occupied)) ++
  (serializeBB (p.pieces p.side BISHOP)).flatMap
    (fun fromS => pieceBlockMoves capturesOnly fromS (bishopAttacksMagic fromS p.occupied)
      (theirPiecesNoKing p) (U64MASK ^^^ p.occupied)) ++
  (serializeBB (p.pieces p.side ROOK)).flatMap
    (fun fromS => pieceBlockMoves capturesOnly fromS (rookAttacksMagic fromS p.occupied)
      (theirPiecesNoKing p) (U64MASK ^^^ p.occupied)) ++
  (serializeBB (p.pieces p.side QUEEN)).flatMap
    (fun fromS => pieceBlockMoves capturesOnly fromS (queenAttacksMagic fromS p.occupied)
      (theirPiecesNoKing p) (U64MASK ^^^ p.occupied)) ++
  (if p.pieces p.side KING ≠ 0 then
      pieceBlockMoves capturesOnly (lsbIdx (p.pieces p.side KING))
        (kingAttacks (lsbIdx (p.pieces p.side KING))) (theirPiecesNoKing p)
        (U64MASK ^^^ p.occupied)
    else []) ++
  (serializeBB (p.pieces p.side PAWN)).flatMap
    (fun fromS => pawnBlockMoves p capturesOnly p.side fromS (theirPiecesNoKing p)) ++
  (if ¬ capturesOnly ∧ ¬ p.isCheck ∧ p.pieces p.side KING ≠ 0 then
      castleMovesGen p p.side (p.side ^^^ 1) (lsbIdx (p.pieces p.side KING))
    else [])

/-! ## Concrete position builders (for witnesses and failing inputs) -/

/-- Builds the 14 piece bitboards from a placement list `(color, type, square)`. -/
def piecesFromList (l : List (Nat × Nat × Nat)) : Nat → Nat → Nat :=
  fun c pt => (l.filter (fun e => e.1 = c ∧ e.2.1 = pt)).foldl (fun acc e => acc ||| bitAt e.2.2) 0

/-- Builds the mailbox from a placement list. -/
def boardFromList (l : List (Nat × Nat × Nat)) : List Nat :=
  l.foldl (fun b e => b.set e.2.2 ((e.1 <<< 3) ||| e.2.1)) (List.replicate 64 0)

/-- Builds the occupancy bitboard from a placement list. -/
def occFromList (l : List (Nat × Nat × Nat)) : Nat :=
  l.foldl (fun acc e => acc ||| bitAt e.2.2) 0

/-- FEN `4k2r/8/8/8/8/8/8/4K2R w Kk - 0 1`: white Ke1 and Rh1, black Ke8 and
Rh8, castling slots `K` (h1) and `k` (h8) live. -/
def c1Placements : List (Nat × Nat × Nat) :=
  [(WHITE, KING, 4), (WHITE, ROOK, 7), (BLACK, KING, 60), (BLACK, ROOK, 63)]

def c1Pos : Position :=
  { pieces := piecesFromList c1Placements
    board := boardFromList c1Placements
    side := WHITE
    occupied := occFromList c1Placements
    fifty := 0, ply := 0, gamePly := 1
    epSquare := -1
    castleRookSq := fun c s =>
      if c = WHITE ∧ s = 0 then 7 else if c = BLACK ∧ s = 0 then 63 else -1
    chess960 := false
    hash := 0
    history := [0] }

/-- Shredder-FEN `k7/8/8/8/8/8/8/5K1R w H - 0 1` (Chess960): white king on f1
with its castling rook on h1, black king on a8.  Kingside castling moves the
king f1→g1 and the rook h1→f1 — the rook's destination *is* the king's origin
square. -/
def c2Placements : List (Nat × Nat × Nat) :=
  [(WHITE, KING, 5), (WHITE, ROOK, 7), (BLACK, KING, 56)]

def c2Pos : Position :=
  { pieces := piecesFromList c2Placements
    board := boardFromList c2Placements
    side := WHITE
    occupied := occFromList c2Placements
    fifty := 0, ply := 0, gamePly := 1
    epSquare := -1
    castleRookSq := fun c s => if c = WHITE ∧ s = 0 then 7 else -1
    chess960 := true
    hash := 0
    history := [0] }

/-- A position with the en-passant square set (black to move after a white
e2-e4 style double push; the en-passant square is e3 = 20). -/
def c4Pos : Position :=
  { pieces := piecesFromList [(WHITE, KING, 4), (WHITE, PAWN, 28), (BLACK, KING, 60),
                              (BLACK, PAWN, 27)]
    board := boardFromList [(WHITE, KING, 4), (WHITE, PAWN, 28), (BLACK, KING, 60),
                            (BLACK, PAWN, 27)]
    side := BLACK
    occupied := occFromList [(WHITE, KING, 4), (WHITE, PAWN, 28), (BLACK, KING, 60),
                             (BLACK, PAWN, 27)]
    fifty := 0, ply := 1, gamePly := 1
    epSquare := 20
    castleRookSq := fun _ _ => -1
    chess960 := false
    hash := 0
    history := [0, 0] }

/-! ## C8 support: the claim's capture predicate and position invariants -/

/-- The union of the enemy side's piece bitboards — "destination occupied by
an enemy piece" from the claim. -/
def enemyOccupancy (p : Position) : Nat :=
  p.pieces (p.side ^^^ 1) PAWN ||| p.pieces (p.side ^^^ 1) KNIGHT |||
  p.pieces (p.side ^^^ 1) BISHOP ||| p.pieces (p.side ^^^ 1) ROOK |||
  p.pieces (p.side ^^^ 1) QUEEN ||| p.pieces (p.side ^^^ 1) KING

/-- The claim's predicate: the move's destination square is occupied by an
enemy piece, or the move is an en-passant capture. -/
def isCaptureOrEp (p : Position) (m : Nat) : Bool :=
  (enemyOccupancy p).testBit (toSq m) || isEnPassant m

/-- The `update_occupied` sum: union of every piece bitboard of both colors. -/
def occupancyOf (p : Position) : Nat :=
  (List.range 2).foldl (fun acc c =>
    (List.range 6).foldl (fun acc i => acc ||| p.pieces c (i + 1)) acc) 0

/-- The Position representation invariants of the data model (spec section 3)
used by the move-generation claim: the side is WHITE or BLACK; the cached
occupancy equals the union of the piece bitboards; bitboards are 64-bit
words; no square carries a piece of both sides; the mailbox is empty exactly
on unoccupied squares; the en-passant square is a square or the -1 sentinel. -/
structure GenInv (p : Position) : Prop where
  side01 : p.side = WHITE ∨ p.side = BLACK
  occEq : p.occupied = occupancyOf p
  piecesLt : ∀ c < 2, ∀ pt < 7, p.pieces c pt < 2 ^ 64
  disj : ∀ pt1 < 7, ∀ pt2 < 7,
    p.pieces p.side pt1 &&& p.pieces (p.side ^^^ 1) pt2 = 0
  boardMatch : ∀ s < 64, (p.boardGet s = 0 ↔ p.occupied.testBit s = false)
  epRange : p.epSquare = -1 ∨ (0 ≤ p.epSquare ∧ p.epSquare < 64)

/-! ## C3: the negamax prologue (hugine.cpp lines 2754-2820)

The embedding covers negamax from entry to the quiescence drop: the ply cap,
the draw-by-repetition exit, mate-distance pruning, the transposition-table
probe with its early return, DTZ pruning, the singular-extension block and the
`depth <= 0` quiescence drop.  Position-derived values (`is_repetition(2)`,
`is_check()`, the static evaluation, the zobrist key) enter as parameters;
the stop flag, time manager, node limit and tablebases are modelled in the
engine's default configuration (stop flag false, no limits, `can_probe` false
because no tablebase is initialised), in which lines 2757-2761, 2763-2766 and
2798-2802 do nothing.  The singular verification search of line 2816 is an
oracle parameter `singularSearch (depth/2) (singular_beta)`. -/

inductive NodeStep where
  | ret (v : Int)
  | quiesce (alpha beta : Int)
  | proceed (depth : Int) (singularTried : Bool)
deriving DecidableEq

def negamaxPrologue (tt : TTable) (key : Nat) (depth alpha beta ply : Int)
    (excluded : Nat) (isRep : Bool) (inCheck : Bool) (staticEval : Int)
    (singularSearch : Int → Int → Int) : NodeStep :=
  if ply ≥ MAX_PLY then .ret staticEval
  else if isRep then .ret 0
  else
    -- mate-distance pruning (lines 2767-2769)
    if max alpha (-MATE_SCORE + ply) ≥ min beta (MATE_SCORE - ply - 1) then
      .ret (max alpha (-MATE_SCORE + ply))
    else
      -- tt_move = NO_MOVE; tt_score = static_eval; tt_dtz = 0; probe (2776-2779)
      match tt.probe key depth (max alpha (-MATE_SCORE + ply))
          (min beta (MATE_SCORE - ply - 1)) staticEval NO_MOVE 0 with
      | (ttHit, ttScore, ttMove, ttDtz) =>
        if ttHit then
          -- lines 2781-2796: every branch returns
          if ttDtz ≠ 0 then
            .ret (if ttDtz > 0 then MATE_SCORE - |ttDtz| - ply
                  else -MATE_SCORE + |ttDtz| + ply)
          else if ttScore > MATE_OFFSET then
            .ret (if ttScore - ply > MATE_SCORE - 1 then MATE_SCORE - 1 else ttScore - ply)
          else if ttScore < -MATE_OFFSET then
            .ret (if ttScore + ply < -MATE_SCORE + 1 then -MATE_SCORE + 1 else ttScore + ply)
          else .ret ttScore
        else
          -- DTZ pruning (lines 2805-2807)
          if ttDtz ≠ 0 ∧ depth ≥ |ttDtz| ∧ ttDtz > 0 then
            .ret (MATE_SCORE - ttDtz - ply - 1)
          else
            -- singular extension (lines 2811-2818); its guard requires tt_hit
            if ttHit ∧ depth ≥ SINGULAR_EXTENSION_DEPTH ∧ ttMove ≠ NO_MOVE ∧
                excluded = NO_MOVE ∧ ¬ inCheck ∧ |ttScore| < MATE_SCORE - MAX_PLY then
              (if singularSearch (depth / 2) (max (ttScore - SINGULAR_MARGIN) (-INF_SCORE))
                    ≤ max (ttScore - SINGULAR_MARGIN) (-INF_SCORE) then
                (if depth + 1 ≤ 0 then .quiesce (max alpha (-MATE_SCORE + ply))
                    (min beta (MATE_SCORE - ply - 1))
                 else .proceed (depth + 1) true)
              else
                (if depth ≤ 0 then .quiesce (max alpha (-MATE_SCORE + ply))
                    (min beta (MATE_SCORE - ply - 1))
                 else .proceed depth true))
            else
              (if depth ≤ 0 then .quiesce (max alpha (-MATE_SCORE + ply))
                  (min beta (MATE_SCORE - ply - 1))
               else .proceed depth false)

/-- A concrete transposition table whose single resident entry is an EXACT,
depth-9 hit with a best move and a quiet (non-mate) score. -/
def c3tt : TTable := ⟨fun _ => ⟨21, 9, 44, BOUND_EXACT, mkMove 12 28, 0, 0⟩, 4, 0⟩

/-! ## Classical evaluation (hugine.cpp lines 1203-1243, 1460-1903)

`Int.tdiv` is used wherever the C++ divides values that may be negative
(C++ integer division truncates toward zero). -/

def PST_PAWN : List Int :=
  [0,0,0,0,0,0,0,0, 50,50,50,50,50,50,50,50,
   10,10,20,30,30,20,10,10, 5,5,10,25,25,10,5,5,
   0,0,0,20,20,0,0,0, 5,-5,-10,0,0,-10,-5,5,
   5,10,10,-20,-20,10,10,5, 0,0,0,0,0,0,0,0]

def PST_KNIGHT : List Int :=
  [-50,-40,-30,-30,-30,-30,-40,-50, -40,-20,0,5,5,0,-20,-40,
   -30,5,10,15,15,10,5,-30, -30,0,15,20,20,15,0,-30,
   -30,5,15,20,20,15,5,-30, -30,0,10,15,15,10,0,-30,
   -40,-20,0,5,5,0,-20,-40, -50,-40,-30,-30,-30,-30,-40,-50]

def PST_BISHOP : List Int :=
  [-20,-10,-10,-10,-10,-10,-10,-20, -10,5,0,0,0,0,5,-10,
   -10,10,10,10,10,10,10,-10, -10,0,10,10,10,10,0,-10,
   -10,5,5,10,10,5,5,-10, -10,0,5,10,10,5,0,-10,
   -10,0,0,0,0,0,0,-10, -20,-10,-10,-10,-10,-10,-10,-20]

def PST_ROOK : List Int :=
  [0,0,0,5,5,0,0,0, -5,0,0,0,0,0,0,-5, -5,0,0,0,0,0,0,-5,
   -5,0,0,0,0,0,0,-5, -5,0,0,0,0,0,0,-5, -5,0,0,0,0,0,0,-5,
   5,10,10,10,10,10,10,5, 0,0,0,0,0,0,0,0]

def PST_QUEEN : List Int :=
  [-20,-10,-10,-5,-5,-10,-10,-20, -10,0,5,0,0,0,0,-10,
   -10,5,5,5,5,5,0,-10, 0,0,5,5,5,5,0,-5,
   -5,0,5,5,5,5,0,-5, -10,0,5,5,5,5,0,-10,
   -10,0,0,0,0,0,0,-10, -20,-10,-10,-5,-5,-10,-10,-20]

def PST_KING_MG : List Int :=
  [20,30,10,0,0,10,30,20, 20,20,0,0,0,0,20,20,
   -10,-20,-20,-20,-20,-20,-20,-10, -20,-30,-30,-40,-40,-30,-30,-20,
   -30,-40,-40,-50,-50,-40,-40,-30, -30,-40,-40,-50,-50,-40,-40,-30,
   -30,-40,-40,-50,-50,-40,-40,-30, -30,-40,-40,-50,-50,-40,-40,-30]

def PST_KING_EG : List Int :=
  [-50,-30,-30,-30,-30,-30,-30,-50, -30,-30,0,0,0,0,-30,-30,
   -30,-10,20,30,30,20,-10,-30, -30,-10,30,40,40,30,-10,-30,
   -30,-10,30,40,40,30,-10,-30, -30,-10,20,30,30,20,-10,-30,
   -30,-20,-10,0,0,-10,-20,-30, -50,-40,-30,-20,-20,-30,-40,-50]

/-- `Evaluation::is_passed_pawn` (lines 1469-1483). -/
def isPassedPawn (p : Position) (sq c : Nat) : Bool :=
  ([-1, 0, 1] : List Int).all (fun df =>
    let nf := (fileOf sq : Int) + df
    if nf < 0 ∨ nf > 7 then true
    else
      (List.range 8).all (fun nr =>
        if (if c = WHITE then (rankOf sq : Int) + 1 else 0) ≤ (nr : Int) ∧
            (nr : Int) ≤ (if c = WHITE then 7 else (rankOf sq : Int) - 1) then
          let pc := p.boardGet (mkSquare nf.toNat nr)
          if pc ≠ 0 ∧ (pc &&& 7) = PAWN ∧ (pc >>> 3) ≠ c then false else true
        else true))

def mobilityBonusTable : List (List Int) :=
  [[0,0,0,0,0,0,0],[0,5,10,15,20,25,30],[0,10,20,30,40,50,60],
   [0,8,16,24,32,40,48],[0,6,12,18,24,30,36],[0,4,8,12,16,20,24],[0,0,0,0,0,0,0]]

/-- `Evaluation::mobility_bonus` (lines 1485-1491). -/
def mobilityBonus (pt cnt : Nat) : Int :=
  (mobilityBonusTable.getD pt []).getD (min cnt 6) 0

/-- `Evaluation::outpost_bonus` (lines 1493-1507). -/
def outpostBonus (p : Position) (sq c : Nat) : Int :=
  if pawnAttacks c sq &&& p.pieces c PAWN = 0 then 0
  else
    let safe := pawnAttacks (1 - c) sq &&& p.pieces (1 - c) PAWN = 0
    let r := rankOf sq
    let rankBonus : Int := if c = WHITE then (max 0 ((r : Int) - 4)) * 5
                           else (max 0 (3 - (r : Int))) * 5
    let safety : Int := if safe then 10 else 0
    let kingDist : Int :=
      if p.pieces (1 - c) KING ≠ 0 then
        let ksq := lsbIdx (p.pieces (1 - c) KING)
        if max ((fileOf ksq : Int) - (fileOf sq : Int)).natAbs
            ((rankOf ksq : Int) - (r : Int)).natAbs ≤ 2 then 5 else 0
      else 0
    20 + rankBonus + safety + kingDist

/-- `Evaluation::king_safety` (lines 1509-1537). -/
def kingSafety (p : Position) (c : Nat) : Int :=
  if p.pieces c KING = 0 then 0
  else
    let ksq := lsbIdx (p.pieces c KING)
    let kf : Int := fileOf ksq
    let kr : Int := rankOf ksq
    let shield :=
      ([-1, 0, 1] : List Int).foldl (fun acc df =>
        let f := kf + df
        if f < 0 ∨ f > 7 then acc
        else
          ([1, 2] : List Int).foldl (fun acc dr =>
            let r := if c = WHITE then kr + dr else kr - dr
            if r < 0 ∨ r > 7 then acc
            else
              let pc := p.boardGet (mkSquare f.toNat r.toNat)
              if pc ≠ 0 ∧ (pc &&& 7) = PAWN ∧ (pc >>> 3) = c then acc + (20 - dr * 5)
              else acc) acc) 0
    let storm :=
      (serializeBB (p.pieces (1 - c) PAWN)).foldl (fun acc s =>
        let sf : Int := fileOf s
        let sr : Int := rankOf s
        if (sf - kf).natAbs ≤ 1 ∧ (sr - kr).natAbs ≤ 3 then
          acc - (4 - ((sr - kr).natAbs : Int)) * 5
        else acc) shield
    ([-1, 0, 1] : List Int).foldl (fun acc df =>
      let f := kf + df
      if f < 0 ∨ f > 7 then acc
      else
        if p.pieces c PAWN &&& (0x0101010101010101 <<< f.toNat) = 0 then acc - 15
        else acc) storm

/-- `Evaluation::space_bonus` (lines 1539-1558). -/
def spaceBonus (p : Position) (c : Nat) : Int :=
  let half : Nat := if c = WHITE then 0xFFFFFFFF00000000 else 0x00000000FFFFFFFF
  let occ := p.occupied
  let enemyPawnAtt := (serializeBB (p.pieces (1 - c) PAWN)).foldl
    (fun acc s => acc ||| pawnAttacks (1 - c) s) 0
  let ourPieces := p.pieces c KNIGHT ||| p.pieces c BISHOP ||| p.pieces c ROOK |||
                   p.pieces c QUEEN
  let ourAtt := (serializeBB ourPieces).foldl (fun acc s =>
    let pt := p.boardGet s &&& 7
    if pt = KNIGHT then acc ||| knightAttacks s
    else if pt = BISHOP then acc ||| bishopAttacksMagic s occ
    else if pt = ROOK then acc ||| rookAttacksMagic s occ
    else if pt = QUEEN then acc ||| queenAttacksMagic s occ
    else acc) 0
  (popcount (ourAtt &&& half &&& (U64MASK ^^^ enemyPawnAtt)) : Int) * 10

/-- `Evaluation::imbalance` (lines 1560-1566). -/
def imbalance (p : Position) : Int :=
  let wm : Int := popcount (p.pieces WHITE KNIGHT) + popcount (p.pieces WHITE BISHOP)
  let bm : Int := popcount (p.pieces BLACK KNIGHT) + popcount (p.pieces BLACK BISHOP)
  let wr : Int := popcount (p.pieces WHITE ROOK)
  let br : Int := popcount (p.pieces BLACK ROOK)
  let wq : Int := popcount (p.pieces WHITE QUEEN)
  let bq : Int := popcount (p.pieces BLACK QUEEN)
  (wm - bm) * 15 + (wr - br) * 20 + (wq - bq) * 40

/-- `Evaluation::threats` (lines 1568-1650). -/
def threats (p : Position) : Int :=
  let occ := p.occupied
  let whitePawnAttacks := (serializeBB (p.pieces WHITE PAWN)).foldl
    (fun acc s => acc ||| pawnAttacks WHITE s) 0
  let blackPawnAttacks := (serializeBB (p.pieces BLACK PAWN)).foldl
    (fun acc s => acc ||| pawnAttacks BLACK s) 0
  let whiteMinorAttacks :=
    (serializeBB (p.pieces WHITE BISHOP)).foldl (fun acc s => acc ||| bishopAttacksMagic s occ)
      ((serializeBB (p.pieces WHITE KNIGHT)).foldl (fun acc s => acc ||| knightAttacks s) 0)
  let blackMinorAttacks :=
    (serializeBB (p.pieces BLACK BISHOP)).foldl (fun acc s => acc ||| bishopAttacksMagic s occ)
      ((serializeBB (p.pieces BLACK KNIGHT)).foldl (fun acc s => acc ||| knightAttacks s) 0)
  let whiteRookAttacks := (serializeBB (p.pieces WHITE ROOK)).foldl
    (fun acc s => acc ||| rookAttacksMagic s occ) 0
  let blackRookAttacks := (serializeBB (p.pieces BLACK ROOK)).foldl
    (fun acc s => acc ||| rookAttacksMagic s occ) 0
  let whiteQueenAttacks := (serializeBB (p.pieces WHITE QUEEN)).foldl
    (fun acc s => acc ||| queenAttacksMagic s occ) 0
  let blackQueenAttacks := (serializeBB (p.pieces BLACK QUEEN)).foldl
    (fun acc s => acc ||| queenAttacksMagic s occ) 0
  let whiteAttacks := whitePawnAttacks ||| whiteMinorAttacks ||| whiteRookAttacks |||
                      whiteQueenAttacks
  let blackAttacks := blackPawnAttacks ||| blackMinorAttacks ||| blackRookAttacks |||
                      blackQueenAttacks
  let whitePieces := p.pieces WHITE KNIGHT ||| p.pieces WHITE BISHOP |||
                     p.pieces WHITE ROOK ||| p.pieces WHITE QUEEN
  let blackPieces := p.pieces BLACK KNIGHT ||| p.pieces BLACK BISHOP |||
                     p.pieces BLACK ROOK ||| p.pieces BLACK QUEEN
  let score1 := (serializeBB (whitePieces &&& blackPawnAttacks)).foldl
    (fun acc s => acc - Int.tdiv (pieceValue (p.boardGet s &&& 7)) 2) 0
  let score2 := (serializeBB (blackPieces &&& whitePawnAttacks)).foldl
    (fun acc s => acc + Int.tdiv (pieceValue (p.boardGet s &&& 7)) 2) score1
  let score3 := (serializeBB (whitePieces &&& blackMinorAttacks)).foldl
    (fun acc s => acc - Int.tdiv (pieceValue (p.boardGet s &&& 7)) 4) score2
  let score4 := (serializeBB (blackPieces &&& whiteMinorAttacks)).foldl
    (fun acc s => acc + Int.tdiv (pieceValue (p.boardGet s &&& 7)) 4) score3
  let undefendedWhite := whitePieces &&& (U64MASK ^^^ whiteAttacks)
  let undefendedBlack := blackPieces &&& (U64MASK ^^^ blackAttacks)
  let score5 := score4 + (popcount (blackAttacks &&& undefendedWhite) : Int) * 10
                       - (popcount (whiteAttacks &&& undefendedBlack) : Int) * 10
  let score6 := if p.pieces WHITE QUEEN &&& blackAttacks ≠ 0 then score5 - 50 else score5
  let score7 := if p.pieces BLACK QUEEN &&& whiteAttacks ≠ 0 then score6 + 50 else score6
  let score8 := (serializeBB (p.pieces WHITE ROOK)).foldl (fun acc s =>
    let fileMask := 0x0101010101010101 <<< fileOf s
    if p.pieces WHITE PAWN &&& fileMask = 0 then
      if p.pieces BLACK PAWN &&& fileMask = 0 then acc + 15 else acc + 10
    else acc) score7
  let score9 := (serializeBB (p.pieces BLACK ROOK)).foldl (fun acc s =>
    let fileMask := 0x0101010101010101 <<< fileOf s
    if p.pieces BLACK PAWN &&& fileMask = 0 then
      if p.pieces WHITE PAWN &&& fileMask = 0 then acc - 15 else acc - 10
    else acc) score8
  Int.tdiv (score9 * p.gamePhase) TOTAL_PHASE

def pstMG (pt idx : Nat) : Int :=
  if pt = PAWN then PST_PAWN.getD idx 0
  else if pt = KNIGHT then PST_KNIGHT.getD idx 0
  else if pt = BISHOP then PST_BISHOP.getD idx 0
  else if pt = ROOK then PST_ROOK.getD idx 0
  else if pt = QUEEN then PST_QUEEN.getD idx 0
  else if pt = KING then PST_KING_MG.getD idx 0
  else 0

def pstEG (pt idx : Nat) : Int :=
  if pt = KING then PST_KING_EG.getD idx 0 else pstMG pt idx

/-- Material + PST loop of `evaluate` (lines 1677-1695). -/
def pstScore (p : Position) : Int :=
  let mgW := p.gamePhase
  let egW := TOTAL_PHASE - p.gamePhase
  (List.range 2).foldl (fun acc c =>
    ([1, 2, 3, 4, 5, 6] : List Nat).foldl (fun acc pt =>
      (serializeBB (p.pieces c pt)).foldl (fun acc sq =>
        let idx := if c = WHITE then sq else 63 - sq
        let pst := Int.tdiv (pstMG pt idx * mgW + pstEG pt idx * egW) TOTAL_PHASE
        if c = WHITE then acc + (pst + pieceValue pt) else acc - (pst + pieceValue pt))
        acc) acc) 0

/-- Mobility loop of `evaluate` (lines 1696-1721): `mob_w - mob_b`. -/
def mobilityScore (p : Position) : Int :=
  let occ := p.occupied
  let att := fun (pt fr : Nat) =>
    (if pt = KNIGHT then knightAttacks fr
     else if pt = BISHOP then bishopAttacksMagic fr occ
     else if pt = ROOK then rookAttacksMagic fr occ
     else queenAttacksMagic fr occ) &&& (U64MASK ^^^ occ)
  let side := fun (c : Nat) =>
    ([2, 3, 4, 5] : List Nat).foldl (fun acc pt =>
      (serializeBB (p.pieces c pt)).foldl (fun acc fr =>
        acc + mobilityBonus pt (popcount (att pt fr))) acc) 0
  side WHITE - side BLACK

/-- Pawn-structure loops of `evaluate` for one color (lines 1723-1780),
returned as the signed contribution to the white-relative score. -/
def pawnStructScore (p : Position) (c : Nat) : Int :=
  let pawns := p.pieces c PAWN
  let fileMask := fun (f : Nat) => 0x0101010101010101 <<< f
  let doubled := (List.range 8).foldl (fun acc f =>
    let cnt : Int := popcount (pawns &&& fileMask f)
    if cnt > 1 then
      let pen := (cnt - 1) * 20
      if c = WHITE then acc - pen else acc + pen
    else acc) 0
  let isolated := (serializeBB pawns).foldl (fun acc sq =>
    let f := fileOf sq
    let iso := ¬ ((f > 0 ∧ pawns &&& fileMask (f - 1) ≠ 0) ∨
                  (f < 7 ∧ pawns &&& fileMask (f + 1) ≠ 0))
    if iso then (if c = WHITE then acc - 15 else acc + 15) else acc) doubled
  let backward := (serializeBB pawns).foldl (fun acc sq =>
    let r := rankOf sq
    if c = WHITE ∧ r < 6 then
      let ahead := mkSquare (fileOf sq) (r + 1)
      if p.boardGet ahead = 0 ∧ pawnAttacks (1 - c) ahead &&& p.pieces (1 - c) PAWN ≠ 0 then
        (if c = WHITE then acc - 20 else acc + 20)
      else acc
    else if c = BLACK ∧ r > 1 then
      let ahead := mkSquare (fileOf sq) (r - 1)
      if p.boardGet ahead = 0 ∧ pawnAttacks (1 - c) ahead &&& p.pieces (1 - c) PAWN ≠ 0 then
        (if c = WHITE then acc - 20 else acc + 20)
      else acc
    else acc) isolated
  let connected := (serializeBB pawns).foldl (fun acc sq =>
    if pawnAttacks c sq &&& pawns ≠ 0 then
      (if c = WHITE then acc + 10 else acc - 10)
    else acc) backward
  let phalanx := (List.range 8).foldl (fun acc f =>
    if popcount (pawns &&& fileMask f) ≥ 2 then
      (if c = WHITE then acc + 15 else acc - 15)
    else acc) connected
  (serializeBB pawns).foldl (fun acc sq =>
    if isPassedPawn p sq c then
      let r := rankOf sq
      let adv : Int := if c = WHITE then r else 7 - (r : Int)
      let bonus := 30 + adv * adv * 4
      let bonus := if fileOf sq = 0 ∨ fileOf sq = 7 then bonus + 15 else bonus
      let bonus := if (c = WHITE ∧ r = 6) ∨ (c = BLACK ∧ r = 1) then bonus + 30 else bonus
      let bonus :=
        if p.pieces (1 - c) KING ≠ 0 then
          let ksq := lsbIdx (p.pieces (1 - c) KING)
          if max ((fileOf ksq : Int) - (fileOf sq : Int)).natAbs
              ((rankOf ksq : Int) - (r : Int)).natAbs < 3 then bonus + 10 else bonus
        else bonus
      if c = WHITE then acc + bonus else acc - bonus
    else acc) phalanx

/-- Outpost loop of `evaluate` (lines 1781-1794). -/
def outpostScore (p : Position) : Int :=
  (List.range 2).foldl (fun acc c =>
    let acc := (serializeBB (p.pieces c KNIGHT)).foldl (fun acc sq =>
      if c = WHITE then acc + outpostBonus p sq c else acc - outpostBonus p sq c) acc
    (serializeBB (p.pieces c BISHOP)).foldl (fun acc sq =>
      if c = WHITE then acc + outpostBonus p sq c else acc - outpostBonus p sq c) acc) 0

/-- Rim-knight loop of `evaluate` (lines 1795-1804). -/
def rimKnightScore (p : Position) : Int :=
  (List.range 2).foldl (fun acc c =>
    (serializeBB (p.pieces c KNIGHT)).foldl (fun acc sq =>
      if fileOf sq = 0 ∨ fileOf sq = 7 then
        let pen := Int.tdiv (20 * p.gamePhase) TOTAL_PHASE
        if c = WHITE then acc - pen else acc + pen
      else acc) acc) 0

/-- Long-diagonal bishop loop of `evaluate` (lines 1805-1818). -/
def bishopDiagScore (p : Position) : Int :=
  (List.range 2).foldl (fun acc c =>
    (serializeBB (p.pieces c BISHOP)).foldl (fun acc sq =>
      let f := fileOf sq
      let r := rankOf sq
      if f = r ∨ f + r = 7 then
        let pawns := p.pieces WHITE PAWN ||| p.pieces BLACK PAWN
        let blockers : Int := popcount (bishopAttacksMagic sq pawns &&& pawns)
        let b := Int.tdiv ((20 - 5 * blockers) * p.gamePhase) TOTAL_PHASE
        if b > 0 then (if c = WHITE then acc + b else acc - b) else acc
      else acc) acc) 0

/-- Queen-on-open-file loop of `evaluate` (lines 1819-1830). -/
def queenOpenFileScore (p : Position) : Int :=
  (List.range 2).foldl (fun acc c =>
    (serializeBB (p.pieces c QUEEN)).foldl (fun acc sq =>
      if (p.pieces WHITE PAWN ||| p.pieces BLACK PAWN) &&& (0x0101010101010101 <<< fileOf sq) = 0 then
        let b := Int.tdiv (10 * p.gamePhase) TOTAL_PHASE
        if c = WHITE then acc + b else acc - b
      else acc) acc) 0

/-- Weak/strong-squares block of `evaluate` (lines 1842-1867), before the
phase scaling: `ws + ss`. -/
def weakStrongScore (p : Position) : Int :=
  let occ := p.occupied
  let side := fun (c : Nat) =>
    let a := (serializeBB (p.pieces c KNIGHT)).foldl (fun acc s => acc ||| knightAttacks s) 0
    let a := (serializeBB (p.pieces c BISHOP ||| p.pieces c QUEEN)).foldl
      (fun acc s => acc ||| bishopAttacksMagic s occ) a
    let a := (serializeBB (p.pieces c ROOK)).foldl
      (fun acc s => acc ||| rookAttacksMagic s occ) a
    if p.pieces c KING ≠ 0 then a ||| kingAttacks (lsbIdx (p.pieces c KING)) else a
  let wAtt := side WHITE
  let bAtt := side BLACK
  let empty := U64MASK ^^^ occ
  let weakW := bAtt &&& (U64MASK ^^^ wAtt) &&& empty
  let weakB := wAtt &&& (U64MASK ^^^ bAtt) &&& empty
  let strongW := wAtt &&& (U64MASK ^^^ bAtt) &&& empty
  let strongB := bAtt &&& (U64MASK ^^^ wAtt) &&& empty
  let central := bitAt (mkSquare 3 3) ||| bitAt (mkSquare 4 3) |||
                 bitAt (mkSquare 3 4) ||| bitAt (mkSquare 4 4)
  let notCentral := U64MASK ^^^ central
  let ws : Int := (popcount (weakW &&& central) : Int) * 20 + (popcount (weakW &&& notCentral) : Int) * 5
    - ((popcount (weakB &&& central) : Int) * 20 + (popcount (weakB &&& notCentral) : Int) * 5)
  let ss : Int := (popcount (strongW &&& central) : Int) * 15 + (popcount (strongW &&& notCentral) : Int) * 3
    - ((popcount (strongB &&& central) : Int) * 15 + (popcount (strongB &&& notCentral) : Int) * 3)
  ws + ss

/-- `Evaluation::evaluate` (lines 1664-1902), without NNUE (not compiled in by
default) and with the `contempt` member passed explicitly (0 unless set). -/
def evaluate (p : Position) (contempt : Int) : Int :=
  if p.fifty ≥ 100 ∨ p.isRepetition 2 then 0
  else
    let pieceCount := popcount p.occupied
    if pieceCount = 2 then 0
    else if pieceCount = 3 ∧
        popcount (p.pieces WHITE BISHOP ||| p.pieces BLACK BISHOP) = 1 then 0
    else if pieceCount = 3 ∧
        popcount (p.pieces WHITE KNIGHT ||| p.pieces BLACK KNIGHT) = 1 then 0
    else
      let phase := p.gamePhase
      let s1 := pstScore p + mobilityScore p
      let s2 := s1 + pawnStructScore p WHITE + pawnStructScore p BLACK
      let s3 := s2 + outpostScore p + rimKnightScore p + bishopDiagScore p +
                queenOpenFileScore p
      let s4 := if popcount (p.pieces WHITE BISHOP) ≥ 2 then s3 + 50 else s3
      let s5 := if popcount (p.pieces BLACK BISHOP) ≥ 2 then s4 - 50 else s4
      let seventh : Nat := if p.side = WHITE then 0xFF <<< 48 else 0xFF <<< 8
      let s6 := s5 + (popcount (p.pieces WHITE ROOK &&& seventh) : Int) * 30
                   - (popcount (p.pieces BLACK ROOK &&& seventh) : Int) * 30
      let s7 := if ¬ p.isEndgame then s6 + kingSafety p WHITE - kingSafety p BLACK else s6
      let space := spaceBonus p WHITE - spaceBonus p BLACK
      let s8 := s7 + Int.tdiv (space * phase) TOTAL_PHASE
      let s9 := s8 + imbalance p
      let s10 := s9 + Int.tdiv (weakStrongScore p * phase) TOTAL_PHASE
      let s11 :=
        if ¬ p.isEndgame then
          let our : Int := popcount (p.pieces WHITE KNIGHT ||| p.pieces WHITE BISHOP |||
                                     p.pieces WHITE ROOK ||| p.pieces WHITE QUEEN)
          let their : Int := popcount (p.pieces BLACK KNIGHT ||| p.pieces BLACK BISHOP |||
                                       p.pieces BLACK ROOK ||| p.pieces BLACK QUEEN)
          if (our - their).natAbs ≤ 1 then
            let ksW := kingSafety p WHITE
            let ksB := kingSafety p BLACK
            let ksDiff := if p.side = WHITE then ksW - ksB else ksB - ksW
            if ksDiff > 0 then s10 + Int.tdiv ksDiff 2 else s10
          else s10
        else s10
      let wpawns := p.pieces WHITE PAWN
      let bpawns := p.pieces BLACK PAWN
      let trap := Int.tdiv (50 * phase) TOTAL_PHASE
      let s12 := if p.pieces WHITE BISHOP &&& bitAt (mkSquare 0 1) ≠ 0 ∧
                    wpawns &&& bitAt (mkSquare 1 2) ≠ 0 then s11 - trap else s11
      let s13 := if p.pieces WHITE BISHOP &&& bitAt (mkSquare 7 1) ≠ 0 ∧
                    wpawns &&& bitAt (mkSquare 6 2) ≠ 0 then s12 - trap else s12
      let s14 := if p.pieces BLACK BISHOP &&& bitAt (mkSquare 0 6) ≠ 0 ∧
                    bpawns &&& bitAt (mkSquare 1 5) ≠ 0 then s13 + trap else s13
      let s15 := if p.pieces BLACK BISHOP &&& bitAt (mkSquare 7 6) ≠ 0 ∧
                    bpawns &&& bitAt (mkSquare 6 5) ≠ 0 then s14 + trap else s14
      let s16 := s15 + threats p
      let dynContempt := Int.tdiv (contempt * (24 - phase)) 24
      let s17 := if dynContempt ≠ 0 ∧ ¬ p.isEndgame ∧ s16.natAbs < 200 then
                   s16 + dynContempt
                 else s16
      if p.side = WHITE then s17 else -s17

/-! ## Claim C9: the mirror operation

The mirror operation is not code of this repository: the spec defines it in
words (swap the colors of all pieces, reflect the board vertically, and swap
the side to move), so `mirrorSpec` below is modelled from the spec's words. -/

def flipBB (b : Nat) : Nat :=
  (List.range 64).foldl (fun acc i => if b.testBit i then acc ||| bitAt (i ^^^ 56) else acc) 0

def mirrorSpec (p : Position) : Position :=
  { pieces := fun c pt => flipBB (p.pieces (c ^^^ 1) pt)
    board := (List.range 64).map (fun s =>
      let pc := p.boardGet (s ^^^ 56)
      if pc = 0 then 0 else pc ^^^ 8)
    side := p.side ^^^ 1
    occupied := flipBB p.occupied
    fifty := p.fifty, ply := p.ply, gamePly := p.gamePly
    epSquare := if p.epSquare = -1 then -1 else (((p.epSquare.toNat ^^^ 56 : Nat)) : Int)
    castleRookSq := fun c s =>
      let r := p.castleRookSq (c ^^^ 1) s
      if r = -1 then -1 else (((r.toNat ^^^ 56 : Nat)) : Int)
    chess960 := p.chess960
    hash := p.hash
    history := p.history }

/-- White Ke1 and Qb3, black Ke8, white to move, no pawns, no castling
rights, no en-passant square. -/
def c9Placements : List (Nat × Nat × Nat) :=
  [(WHITE, KING, 4), (WHITE, QUEEN, 17), (BLACK, KING, 60)]

def c9Pos : Position :=
  { pieces := piecesFromList c9Placements
    board := boardFromList c9Placements
    side := WHITE
    occupied := occFromList c9Placements
    fifty := 0, ply := 0, gamePly := 1
    epSquare := -1
    castleRookSq := fun _ _ => -1
    chess960 := false
    hash := 1
    history := [] }

/-! ## Claim C7: terminal scores of negamax and quiescence

The search functions are modelled from the move-generation point onward
(hugine.cpp lines 2879-3116 of `negamax`, 2602-2697 of `quiescence`).
Recursive calls are abstracted by a `child` oracle, `score_move` (which reads
the runtime history tables) by a `scoreFn` oracle, and
`eval.evaluate(pos) + learning.probe(hash)` by an `evalFn` oracle; the stack
entries `stack[ply-1].captured_piece` / `.current_move` are the parameters
`prevCaptured` / `prevMove`. Time management, node counters and `stop_search`
are runtime I/O state modelled as quiet (no stop), the tablebase wrapper's
`can_probe` is false by default (line 2056), single-thread search is modelled
(so the YBWC split block, guarded by `total_threads > 1`, is skipped), the
IID call (lines 2910-2913) discards its result and history/killer updates
(lines 3060-3095) do not feed the returned value. `std::sort` is modelled by
insertion sort with the source's comparator. -/

/-- The king-capture skip test `pos.piece_on(to_sq(m)) && ((pos.piece_on(to_sq(m)) & 7) == KING)`
(lines 2647, 2898, 2971). -/
def isKingCaptureMove (p : Position) (m : Nat) : Bool :=
  decide (p.boardGet (toSq m) ≠ 0 ∧ (p.boardGet (toSq m) &&& 7) = KING)

/-- `SearchThread::reduction` (lines 2459-2467). -/
def reduction (improving : Bool) (depth : Int) (moveIdx : Nat) (moveScore : Int)
    (capture check : Bool) : Int :=
  let r := LMR_BASE + Int.tdiv (moveIdx : Int) LMR_DIV
  let r := if depth < 3 then 0 else r
  let r := if ¬improving then r + 1 else r
  let r := if capture then r - 1 else r
  let r := if check then r - 1 else r
  let r := if moveScore < 200000 then r + 1 else r
  max 0 (min r (depth - 2))

/-- The scored-move list of lines 2883-2888: excluded move dropped, each
remaining move paired with its score (the generation index feeds
`score_move`). -/
def buildScored (excluded : Nat) (scoreFn : Nat → Nat → Int) :
    List Nat → Nat → List (Nat × Int)
  | [], _ => []
  | m :: rest, i =>
    if m = excluded then buildScored excluded scoreFn rest (i + 1)
    else (m, scoreFn m i) :: buildScored excluded scoreFn rest (i + 1)

/-- Lines 2883-2890: build and sort by score descending. -/
def sortedScored (p : Position) (excluded : Nat) (scoreFn : Nat → Nat → Int) :
    List (Nat × Int) :=
  (buildScored excluded scoreFn (generateMoves p false) 0).insertionSort
    (fun a b => b.2 ≤ a.2)

/-- The multi-cut block (lines 2892-2908): how many of the first three scored
moves (skipping the TT move, king captures and illegal moves) fail high in the
null-window verification search; the source returns `beta` as soon as this
count reaches 2. -/
def multicutCount (z : ZKeys) (p : Position) (depth beta ply : Int) (cut : Bool)
    (ttMove : Nat) (child : Position → Int → Int → Int → Int → Int)
    (sorted : List (Nat × Int)) : Nat :=
  if depth ≥ 6 ∧ p.isCheck = false ∧ cut = true ∧ ttMove ≠ NO_MOVE then
    (sorted.take 3).foldl (fun mc sm =>
      if sm.1 = ttMove then mc
      else if isKingCaptureMove p sm.1 = true then mc
      else
        if (p.makeMove z sm.1).moverInCheck = true then mc
        else if -(child (p.makeMove z sm.1) (Int.tdiv depth 2) (-beta) (-beta + 1) (ply + 1)) ≥ beta
        then mc + 1 else mc) 0
  else 0

/-- The normal move loop of `negamax` (lines 2968-3106), carried state
`(remaining scored moves, loop index, best_score, alpha)`; on a beta cutoff
the loop breaks with `best_score = score` and the function returns it, and
after a completed loop the no-legal-move default of lines 3102-3106 applies. -/
def negamaxMoveLoop (z : ZKeys) (p : Position) (depth beta ply staticEval : Int)
    (inCheck improving : Bool) (prevCaptured prevMove : Nat)
    (child : Position → Int → Int → Int → Int → Int) :
    List (Nat × Int) → Nat → Int → Int → Int
  | [], _, bestScore, _ =>
    if bestScore = -INF_SCORE then (if inCheck then -MATE_SCORE + ply else 0)
    else bestScore
  | sm :: rest, i, bestScore, alpha =>
    if isKingCaptureMove p sm.1 = true then
      negamaxMoveLoop z p depth beta ply staticEval inCheck improving prevCaptured
        prevMove child rest (i + 1) bestScore alpha
    else if depth ≤ 3 ∧ inCheck = false ∧ p.boardGet (toSq sm.1) = 0 ∧
        staticEval + (SEE_QUIET_MARGIN + depth * 50 +
          (if sm.2 < 500000 then 4 * depth else 0)) ≤ alpha then
      negamaxMoveLoop z p depth beta ply staticEval inCheck improving prevCaptured
        prevMove child rest (i + 1) bestScore alpha
    else if p.boardGet (toSq sm.1) = 0 ∧ inCheck = false ∧ depth ≤ 7 ∧
        (i : Int) ≥ (LMP_BASE : Int) + depth * (LMP_FACTOR : Int) ∧
        (improving = false ∨ (i : Int) ≥ (LMP_BASE : Int) + depth * (LMP_FACTOR : Int) * 2) then
      negamaxMoveLoop z p depth beta ply staticEval inCheck improving prevCaptured
        prevMove child rest (i + 1) bestScore alpha
    else
      if (p.makeMove z sm.1).moverInCheck = true then
        negamaxMoveLoop z p depth beta ply staticEval inCheck improving prevCaptured
          prevMove child rest (i + 1) bestScore alpha
      else
        let captured := p.boardGet (toSq sm.1)
        let us := p.side
        let gchk := p.givesCheck z sm.1
        let movingPt := if promotionType sm.1 ≠ 0 then promotionType sm.1
                        else p.boardGet (fromSq sm.1) &&& 7
        let p2 := p.makeMove z sm.1
        let ext1 : Int :=
          if ply > 0 ∧ prevCaptured ≠ 0 ∧ toSq sm.1 = toSq prevMove then 1
          else if movingPt = PAWN ∧ isPassedPawn p2 (fromSq sm.1) us = true ∧
              ((us = WHITE ∧ rankOf (toSq sm.1) > rankOf (fromSq sm.1)) ∨
               (us = BLACK ∧ rankOf (toSq sm.1) < rankOf (fromSq sm.1))) then 1
          else 0
        let newDepth := min (depth - 1 + (if inCheck then 1 else 0) + ext1 +
                             (if gchk then 1 else 0)) (depth + 2)
        let score :=
          if i = 0 then -(child p2 newDepth (-beta) (-alpha) (ply + 1))
          else
            let red := if captured ≠ 0 then 0
                       else reduction improving depth i sm.2 (decide (captured ≠ 0)) gchk
            let s1 := -(child p2 (newDepth - red) (-alpha - 1) (-alpha) (ply + 1))
            if alpha < s1 ∧ s1 < beta then -(child p2 newDepth (-beta) (-alpha) (ply + 1))
            else s1
        if score > bestScore then
          if score > alpha then
            if score ≥ beta then score
            else negamaxMoveLoop z p depth beta ply staticEval inCheck improving
              prevCaptured prevMove child rest (i + 1) score score
          else negamaxMoveLoop z p depth beta ply staticEval inCheck improving
            prevCaptured prevMove child rest (i + 1) score alpha
        else negamaxMoveLoop z p depth beta ply staticEval inCheck improving
          prevCaptured prevMove child rest (i + 1) bestScore alpha

/-- `SearchThread::negamax` from the move-generation point (lines 2879-3116). -/
def negamaxFromGeneration (z : ZKeys) (p : Position) (depth alpha beta ply : Int)
    (cut : Bool) (excluded ttMove : Nat) (staticEval : Int) (improving : Bool)
    (prevCaptured prevMove : Nat) (scoreFn : Nat → Nat → Int)
    (child : Position → Int → Int → Int → Int → Int) : Int :=
  if (generateMoves p false).length = 0 then
    (if p.isCheck then -MATE_SCORE + ply else 0)
  else if multicutCount z p depth beta ply cut ttMove child
      (sortedScored p excluded scoreFn) ≥ 2 then beta
  else
    negamaxMoveLoop z p depth beta ply staticEval p.isCheck improving prevCaptured
      prevMove child (sortedScored p excluded scoreFn) 0 (-INF_SCORE) alpha

/-- The move loop of `quiescence` (lines 2644-2696), carried state
`(remaining moves, legal_count, alpha)`. -/
def quiescenceLoop (z : ZKeys) (p : Position) (beta ply qDepth standPat : Int)
    (inCheck : Bool) (child : Position → Int → Int → Int → Int → Int) :
    List Nat → Nat → Int → Int
  | [], legalCount, alpha =>
    if inCheck = true ∧ legalCount = 0 then -MATE_SCORE + ply else alpha
  | m :: rest, legalCount, alpha =>
    if isKingCaptureMove p m = true then
      quiescenceLoop z p beta ply qDepth standPat inCheck child rest legalCount alpha
    else if inCheck = false ∧ p.see m + 200 + standPat < alpha then
      quiescenceLoop z p beta ply qDepth standPat inCheck child rest legalCount alpha
    else if (p.makeMove z m).moverInCheck = true then
      quiescenceLoop z p beta ply qDepth standPat inCheck child rest legalCount alpha
    else
      if -(child (p.makeMove z m) (-beta) (-alpha) (ply + 1) (qDepth + 1)) ≥ beta then beta
      else if -(child (p.makeMove z m) (-beta) (-alpha) (ply + 1) (qDepth + 1)) > alpha then
        quiescenceLoop z p beta ply qDepth standPat inCheck child rest (legalCount + 1)
          (-(child (p.makeMove z m) (-beta) (-alpha) (ply + 1) (qDepth + 1)))
      else
        quiescenceLoop z p beta ply qDepth standPat inCheck child rest (legalCount + 1) alpha

/-- `SearchThread::quiescence` (lines 2602-2697). -/
def quiescenceModel (z : ZKeys) (p : Position) (alpha beta ply qDepth : Int)
    (evalFn : Position → Int)
    (child : Position → Int → Int → Int → Int → Int) : Int :=
  if ply ≥ MAX_PLY ∨ qDepth ≥ MAX_QSEARCH_DEPTH then evalFn p
  else if p.isRepetition 2 = true then 0
  else if p.isCheck = false ∧ evalFn p ≥ beta then beta
  else
    quiescenceLoop z p beta ply qDepth (evalFn p) p.isCheck child
      ((generateMoves p (!p.isCheck)).insertionSort (fun a b => p.see b ≤ p.see a))
      0
      (if p.isCheck = false ∧ evalFn p > alpha then evalFn p else alpha)

/-- Stalemate: black Ka8 to move, white Kb6 and Qc7; black is not in check
and every generated move leaves the black king attacked. -/
def c7StalePos : Position :=
  { pieces := piecesFromList [(WHITE, KING, 41), (WHITE, QUEEN, 50), (BLACK, KING, 56)]
    board := boardFromList [(WHITE, KING, 41), (WHITE, QUEEN, 50), (BLACK, KING, 56)]
    side := BLACK
    occupied := occFromList [(WHITE, KING, 41), (WHITE, QUEEN, 50), (BLACK, KING, 56)]
    fifty := 0, ply := 0, gamePly := 1
    epSquare := -1
    castleRookSq := fun _ _ => -1
    chess960 := false
    hash := 1
    history := [] }

/-- Back-rank checkmate: black Kh8 to move, white Ka1, Rg1 and Rh1; black is
in check and every generated move leaves the black king attacked. -/
def c7MatePos : Position :=
  { pieces := piecesFromList [(WHITE, KING, 0), (WHITE, ROOK, 6), (WHITE, ROOK, 7),
                              (BLACK, KING, 63)]
    board := boardFromList [(WHITE, KING, 0), (WHITE, ROOK, 6), (WHITE, ROOK, 7),
                            (BLACK, KING, 63)]
    side := BLACK
    occupied := occFromList [(WHITE, KING, 0), (WHITE, ROOK, 6), (WHITE, ROOK, 7),
                             (BLACK, KING, 63)]
    fifty := 0, ply := 0, gamePly := 1
    epSquare := -1
    castleRookSq := fun _ _ => -1
    chess960 := false
    hash := 1
    history := [] }

/-! ### Claims C5, C6, C10 -/

/-- C5 (amended): `store(key, depth, score, bound, best_move, dtz)` leaves the
table unchanged when the resident of bucket `key mod N` has the *same key* and
strictly greater depth — regardless of the ages of the resident and of the
current search; in every other case (shallower or equal-depth same-key
resident, or any resident under a different key) the incoming entry is written
into the bucket, stamped with the table's current age, and all other buckets
are untouched. -/
theorem c5_store_ignores_age (t : TTable) (key : Nat) (depth score : Int)
    (bound move : Nat) (dtz : Int) :
    (((t.table (key % t.size)).key = key ∧ (t.table (key % t.size)).depth > depth) →
        t.store key depth score bound move dtz = t) ∧
    (¬ ((t.table (key % t.size)).key = key ∧ (t.table (key % t.size)).depth > depth) →
        ((t.store key depth score bound move dtz).table (key % t.size)
            = ⟨key, depth, score, bound, move, t.age, dtz⟩ ∧
         ∀ i, i ≠ key % t.size →
            (t.store key depth score bound move dtz).table i = t.table i)) := by
  constructor
  · intro h
    simp [TTable.store, h]
  · intro h
    refine ⟨?_, ?_⟩
    · simp [TTable.store, h]
    · intro i hi
      simp [TTable.store, h, hi]

/-- Witness for C5's amended theorem: a concrete table whose resident (key 5,
depth 2) is overwritten by a store of depth 7 at the same key. -/
theorem c5_store_ignores_age_witness :
    let t : TTable := ⟨fun _ => ⟨5, 2, 11, BOUND_EXACT, 9, 0, 0⟩, 4, 3⟩
    ¬ (((t.table (5 % t.size)).key = 5 ∧ (t.table (5 % t.size)).depth > 7)) ∧
    (t.store 5 7 44 BOUND_LOWER 13 0).table (5 % t.size)
        = ⟨5, 7, 44, BOUND_LOWER, 13, 3, 0⟩ ∧
    (t.store 5 7 44 BOUND_LOWER 13 0).table 2 = ⟨5, 2, 11, BOUND_EXACT, 9, 0, 0⟩ := by
  refine ⟨by decide, ?_, ?_⟩
  · exact ((c5_store_ignores_age ⟨fun _ => ⟨5, 2, 11, BOUND_EXACT, 9, 0, 0⟩, 4, 3⟩
      5 7 44 BOUND_LOWER 13 0).2 (by decide)).1
  · exact ((c5_store_ignores_age ⟨fun _ => ⟨5, 2, 11, BOUND_EXACT, 9, 0, 0⟩, 4, 3⟩
      5 7 44 BOUND_LOWER 13 0).2 (by decide)).2 2 (by decide)

/-- C5 counterexample: the claim says a same-key resident of strictly greater
depth whose age is *older* than the table's current search age is replaced by
the incoming entry.  In the code `store` never reads the ages: with current
age 7, a resident of age 0 and depth 10 survives a store of depth 3 at the
same key, so the bucket still holds the old depth-10, age-0 entry. -/
theorem c5_aged_resident_kept :
    let t : TTable := ⟨fun _ => ⟨5, 10, 25, BOUND_EXACT, 9, 0, 0⟩, 4, 7⟩
    (t.table (5 % t.size)).depth > 3 ∧ (t.table (5 % t.size)).age < t.age ∧
    t.store 5 3 0 BOUND_EXACT 17 0 = t := by
  refine ⟨by decide, by decide, ?_⟩
  show TTable.store _ 5 3 0 BOUND_EXACT 17 0 = _
  simp [TTable.store]

/-- C6: `probe(key, depth, alpha, beta)` returns `hit = true` exactly when the
resident entry of bucket `key mod N` has the probed key, depth ≥ the requested
depth, and a bound compatible with the window (EXACT always, LOWER only when
its score ≥ beta, UPPER only when its score ≤ alpha); and whenever the key
matches — hit or not — the stored score, move and dtz are written to the
out-parameters. -/
theorem c6_probe_characterization (t : TTable) (key : Nat) (depth alpha beta : Int)
    (score0 : Int) (move0 : Nat) (dtz0 : Int) :
    ((t.probe key depth alpha beta score0 move0 dtz0).1 = true ↔
      ((t.table (key % t.size)).key = key ∧ (t.table (key % t.size)).depth ≥ depth ∧
       ((t.table (key % t.size)).bound = BOUND_EXACT ∨
        ((t.table (key % t.size)).bound = BOUND_LOWER ∧ (t.table (key % t.size)).score ≥ beta) ∨
        ((t.table (key % t.size)).bound = BOUND_UPPER ∧ (t.table (key % t.size)).score ≤ alpha)))) ∧
    ((t.table (key % t.size)).key = key →
      (t.probe key depth alpha beta score0 move0 dtz0).2 =
        ((t.table (key % t.size)).score, (t.table (key % t.size)).move,
         (t.table (key % t.size)).dtz)) := by
  refine ⟨?_, ?_⟩
  · unfold TTable.probe
    split
    · next hne =>
      simp only [Prod.fst]
      constructor
      · intro h; exact absurd h (by simp)
      · rintro ⟨hk, -⟩; exact absurd hk hne
    · next hne =>
      have hk : (t.table (key % t.size)).key = key := not_not.mp hne
      split
      · next hd =>
        split
        · next hb => simp [hk, hd, hb]
        · next hb =>
          split
          · next hb2 => simp [hk, hd, hb2]
          · next hb2 =>
            split
            · next hb3 => simp [hk, hd, hb3]
            · next hb3 =>
              simp only [Prod.fst]
              constructor
              · intro h; exact absurd h (by simp)
              · rintro ⟨-, -, h3 | h3 | h3⟩
                · exact absurd h3 hb
                · exact absurd h3 hb2
                · exact absurd h3 hb3
      · next hd =>
        simp only [Prod.fst]
        constructor
        · intro h; exact absurd h (by simp)
        · rintro ⟨-, h2, -⟩; exact absurd h2 hd
  · intro hk
    unfold TTable.probe
    split
    · next hne => exact absurd hk hne
    · split
      · split
        · rfl
        · split
          · rfl
          · split
            · rfl
            · rfl
      · rfl

/-- Witness for C6: a concrete LOWER-bound entry whose score meets beta gives a
hit and surfaces the stored score, move and dtz. -/
theorem c6_probe_characterization_witness :
    let t : TTable := ⟨fun _ => ⟨21, 9, 120, BOUND_LOWER, 777, 1, 4⟩, 8, 1⟩
    (t.table (21 % t.size)).key = 21 ∧
    ((t.probe 21 6 (-30) 100 0 0 0).1 = true ↔
      ((t.table (21 % t.size)).key = 21 ∧ (t.table (21 % t.size)).depth ≥ 6 ∧
       ((t.table (21 % t.size)).bound = BOUND_EXACT ∨
        ((t.table (21 % t.size)).bound = BOUND_LOWER ∧ (t.table (21 % t.size)).score ≥ 100) ∨
        ((t.table (21 % t.size)).bound = BOUND_UPPER ∧ (t.table (21 % t.size)).score ≤ -30)))) ∧
    (t.probe 21 6 (-30) 100 0 0 0).2 = (120, 777, 4) := by
  refine ⟨by decide, (c6_probe_characterization _ 21 6 (-30) 100 0 0 0).1, ?_⟩
  have := (c6_probe_characterization ⟨fun _ => ⟨21, 9, 120, BOUND_LOWER, 777, 1, 4⟩, 8, 1⟩
      21 6 (-30) 100 0 0 0).2 (by decide)
  simpa using this

/-- C10: when the resident entry's key differs from the probed key, `probe`
returns `false` and leaves the score, move and dtz out-parameters exactly as
the caller set them (negamax pre-seeds the score with the static evaluation
and relies on this). -/
theorem c10_probe_frame (t : TTable) (key : Nat) (depth alpha beta : Int)
    (score0 : Int) (move0 : Nat) (dtz0 : Int)
    (h : (t.table (key % t.size)).key ≠ key) :
    t.probe key depth alpha beta score0 move0 dtz0 = (false, score0, move0, dtz0) := by
  unfold TTable.probe
  simp [h]

/-- Witness for C10: probing an empty table under a fresh key keeps the seeded
out-parameters (score 57, move 0, dtz 0) intact. -/
theorem c10_probe_frame_witness :
    let t : TTable := ⟨fun _ => TTEntry.empty, 16, 0⟩
    (t.table (33 % t.size)).key ≠ 33 ∧
    t.probe 33 4 (-10) 10 57 NO_MOVE 0 = (false, 57, NO_MOVE, 0) := by
  exact ⟨by decide, c10_probe_frame _ 33 4 (-10) 10 57 NO_MOVE 0 (by decide)⟩

/-! ### Claims C1, C2, C4 -/

/-- C1: capturing the rook that stands on the square named by an opponent's
castling slot does NOT clear that slot.  In the position
`4k2r/8/8/8/8/8/8/4K2R w Kk - 0 1` the legal generated move Rh1xh8 leaves
black's kingside slot still naming h8 (63) although no black rook remains
there (the square now holds the white rook, piece code 4): the castling-slot
invariant is violated.  The source's slot-clearing loop (lines 902-905) tests
the move's *origin* square against the opponent's slots — a condition that can
never fire — instead of the *destination* square. -/
theorem c1_captured_rook_slot_stale :
    mkMove 7 63 ∈ generateMoves c1Pos false ∧
    (c1Pos.makeMove zeroKeys (mkMove 7 63)).moverInCheck = false ∧
    (c1Pos.makeMove zeroKeys (mkMove 7 63)).castleRookSq BLACK 0 = 63 ∧
    ((c1Pos.makeMove zeroKeys (mkMove 7 63)).pieces BLACK ROOK).testBit 63 = false ∧
    (c1Pos.makeMove zeroKeys (mkMove 7 63)).boardGet 63 = ((WHITE <<< 3) ||| ROOK) := by
  refine ⟨by decide, by decide, by decide, by decide, by decide⟩

/-- C2: make then undo is not the identity.  In the Chess960 position
`k7/8/8/8/8/8/8/5K1R w H - 0 1` the generated, legal kingside castling move
(king f1→g1, rook h1→f1) is applied correctly by `make_move`, but
`undo_move` — called with the captured piece, packed castling rights,
en-passant square and halfmove clock saved immediately before the make, as the
search does — erases the king from the mailbox: `board[rook_dest] = 0` (line
956) runs after the king was restored to `board[from]` and `rook_dest = from`
here.  The restored position differs from the original (`board[f1]` is 0, not
the white king), while the king bitboard still has the f1 bit: the round-trip
law and the mailbox/bitboard bijection both fail. -/
theorem c2_undo_not_exact_inverse :
    (mkMove 5 6 ||| CASTLE_FLAG) ∈ generateMoves c2Pos false ∧
    (c2Pos.makeMove zeroKeys (mkMove 5 6 ||| CASTLE_FLAG)).moverInCheck = false ∧
    (c2Pos.makeMove zeroKeys (mkMove 5 6 ||| CASTLE_FLAG)).boardGet 6
        = ((WHITE <<< 3) ||| KING) ∧
    (c2Pos.makeMove zeroKeys (mkMove 5 6 ||| CASTLE_FLAG)).boardGet 5
        = ((WHITE <<< 3) ||| ROOK) ∧
    c2Pos.boardGet 5 = ((WHITE <<< 3) ||| KING) ∧
    ((c2Pos.makeMove zeroKeys (mkMove 5 6 ||| CASTLE_FLAG)).undoMove zeroKeys
        (mkMove 5 6 ||| CASTLE_FLAG) (c2Pos.boardGet 6) c2Pos.castlingRights
        c2Pos.epSquare c2Pos.fifty).boardGet 5 = 0 ∧
    (((c2Pos.makeMove zeroKeys (mkMove 5 6 ||| CASTLE_FLAG)).undoMove zeroKeys
        (mkMove 5 6 ||| CASTLE_FLAG) (c2Pos.boardGet 6) c2Pos.castlingRights
        c2Pos.epSquare c2Pos.fifty).pieces WHITE KING).testBit 5 = true ∧
    ((c2Pos.makeMove zeroKeys (mkMove 5 6 ||| CASTLE_FLAG)).undoMove zeroKeys
        (mkMove 5 6 ||| CASTLE_FLAG) (c2Pos.boardGet 6) c2Pos.castlingRights
        c2Pos.epSquare c2Pos.fifty).board ≠ c2Pos.board := by
  refine ⟨by decide, by decide, by decide, by decide, by decide, by decide, by decide,
    by decide⟩

/-- C4: `make_move(NULL_MOVE)` flips the side to move and pushes the (pre-move)
hash onto the history, but it does NOT clear the en-passant square: the null
branch (lines 849-856) never writes `ep_square`, for any position and any
zobrist key family.  In particular, in a position with the en-passant square
set to e3 (20) it is still 20 — not -1 — immediately after a null move. -/
theorem c4_null_move_ep_unchanged :
    (∀ (z : ZKeys) (p : Position),
      (p.makeMove z NULL_MOVE).epSquare = p.epSquare ∧
      (p.makeMove z NULL_MOVE).side = p.side ^^^ 1 ∧
      (p.makeMove z NULL_MOVE).history = p.history ++ [p.hash]) ∧
    c4Pos.epSquare = 20 ∧
    (c4Pos.makeMove zeroKeys NULL_MOVE).epSquare = 20 ∧
    (c4Pos.makeMove zeroKeys NULL_MOVE).side = WHITE := by
  refine ⟨?_, by decide, by decide, by decide⟩
  intro z p
  unfold Position.makeMove
  by_cases h : p.side ^^^ 1 = WHITE <;>
    simp [h, Position.pushHash, Position.computeHash]

theorem mem_serializeBB {s b : Nat} : s ∈ serializeBB b ↔ s < 64 ∧ b.testBit s = true := by
  simp [serializeBB, List.mem_filter, List.mem_range]

theorem mkMove_lt_4096 {f t : Nat} (hf : f < 64) (ht : t < 64) : mkMove f t < 4096 := by
  have h1 : f <<< 6 < 2 ^ 12 := by rw [Nat.shiftLeft_eq]; norm_num; omega
  have h2 : t < 2 ^ 12 := by norm_num; omega
  have := Nat.or_lt_two_pow h1 h2
  norm_num at this
  exact this

theorem and_63_eq_mod (x : Nat) : x &&& 63 = x % 64 := by
  have := Nat.and_pow_two_sub_one_eq_mod x 6
  norm_num at this
  exact this

theorem toSq_mkMove {f t : Nat} (ht : t < 64) : toSq (mkMove f t) = t := by
  unfold toSq mkMove
  rw [Nat.and_distrib_right, and_63_eq_mod, and_63_eq_mod, Nat.shiftLeft_eq]
  have h1 : f * 2 ^ 6 % 64 = 0 := by
    have : f * 2 ^ 6 = 64 * f := by ring
    rw [this]
    exact Nat.mul_mod_right 64 f
  rw [h1, Nat.mod_eq_of_lt ht, Nat.zero_or]

theorem toSq_orFlag {f t flag : Nat} (ht : t < 64) (hfl : flag % 64 = 0) :
    toSq (mkMove f t ||| flag) = t := by
  unfold toSq
  rw [Nat.and_distrib_right, and_63_eq_mod, and_63_eq_mod, hfl]
  have : mkMove f t &&& 63 = t := toSq_mkMove ht
  rw [and_63_eq_mod] at this
  rw [this, Nat.or_zero]

theorem andF000_eq_zero {m : Nat} (h : m < 4096) : m &&& 0xF000 = 0 := by
  apply Nat.eq_of_testBit_eq
  intro i
  rw [Nat.testBit_and, Nat.zero_testBit]
  rcases lt_or_ge i 12 with h1 | h1
  · have hz : (0xF000 : Nat).testBit i = false := by
      interval_cases i <;> decide
    rw [hz, Bool.and_false]
  · have hz : m.testBit i = false := by
      apply Nat.testBit_lt_two_pow
      calc m < 4096 := h
        _ = 2 ^ 12 := by norm_num
        _ ≤ 2 ^ i := Nat.pow_le_pow_right (by norm_num) h1
    rw [hz, Bool.false_and]

theorem flagged_and_F000 {f t flag : Nat} (hf : f < 64) (ht : t < 64)
    (hfl : flag &&& 0xF000 = flag) :
    (mkMove f t ||| flag) &&& 0xF000 = flag := by
  rw [Nat.and_distrib_right, andF000_eq_zero (mkMove_lt_4096 hf ht), hfl, Nat.zero_or]

theorem isEnPassant_mkMove {f t : Nat} (hf : f < 64) (ht : t < 64) :
    isEnPassant (mkMove f t) = false := by
  unfold isEnPassant
  rw [show PROMO_MASK = 0xF000 from rfl, andF000_eq_zero (mkMove_lt_4096 hf ht)]
  decide

theorem isEnPassant_flagged {f t flag : Nat} (hf : f < 64) (ht : t < 64)
    (hfl : flag &&& 0xF000 = flag) :
    isEnPassant (mkMove f t ||| flag) = decide (flag = ENPASSANT_FLAG) := by
  unfold isEnPassant
  rw [show PROMO_MASK = 0xF000 from rfl, flagged_and_F000 hf ht hfl]

theorem testBit_lsbIdx {b : Nat} (hne : b ≠ 0) (hlt : b < 2 ^ 64) :
    b.testBit (lsbIdx b) = true ∧ lsbIdx b < 64 := by
  obtain ⟨i, hi⟩ := Nat.ne_zero_implies_bit_true hne
  have hi64 : i < 64 := by
    by_contra hcon
    have : b.testBit i = false :=
      Nat.testBit_lt_two_pow
        (lt_of_lt_of_le hlt (Nat.pow_le_pow_right (by norm_num) (le_of_not_lt hcon)))
    rw [this] at hi
    exact Bool.false_ne_true hi
  have hex : ∃ x ∈ List.range 64, b.testBit x := ⟨i, List.mem_range.mpr hi64, hi⟩
  have hlen : lsbIdx b < 64 := by
    have := List.findIdx_lt_length_of_exists hex
    simpa [lsbIdx, List.length_range] using this
  refine ⟨?_, hlen⟩
  have hw : (List.range 64).findIdx (fun j => b.testBit j) < (List.range 64).length := by
    simpa [List.length_range] using hlen
  have := @List.findIdx_getElem Nat (fun j => b.testBit j) (List.range 64) hw
  simpa [lsbIdx, List.getElem_range] using this

theorem tnk_subset_enemy {p : Position} {t : Nat}
    (h : (theirPiecesNoKing p).testBit t = true) :
    (enemyOccupancy p).testBit t = true := by
  simp only [theirPiecesNoKing, enemyOccupancy, Nat.testBit_or, Bool.or_eq_true] at h ⊢
  tauto

theorem occupancyOf_testBit {p : Position} {t : Nat} :
    (occupancyOf p).testBit t =
      ((p.pieces 0 1).testBit t || (p.pieces 0 2).testBit t || (p.pieces 0 3).testBit t ||
       (p.pieces 0 4).testBit t || (p.pieces 0 5).testBit t || (p.pieces 0 6).testBit t ||
       (p.pieces 1 1).testBit t || (p.pieces 1 2).testBit t || (p.pieces 1 3).testBit t ||
       (p.pieces 1 4).testBit t || (p.pieces 1 5).testBit t || (p.pieces 1 6).testBit t) := by
  have hr2 : List.range 2 = [0, 1] := by decide
  have hr6 : List.range 6 = [0, 1, 2, 3, 4, 5] := by decide
  simp only [occupancyOf, hr2, hr6, List.foldl_cons, List.foldl_nil, Nat.testBit_or,
    Nat.zero_testBit, Bool.false_or]

theorem enemy_subset_occ {p : Position} (hSide : p.side = WHITE ∨ p.side = BLACK)
    (hOcc : p.occupied = occupancyOf p) {t : Nat}
    (h : (enemyOccupancy p).testBit t = true) : p.occupied.testBit t = true := by
  rw [hOcc, occupancyOf_testBit]
  simp only [enemyOccupancy, Nat.testBit_or, Bool.or_eq_true] at h
  rcases hSide with hs | hs <;>
    simp only [hs, WHITE, BLACK, PAWN, KNIGHT, BISHOP, ROOK, QUEEN, KING] at h ⊢ <;>
    simp only [Bool.or_eq_true] <;> tauto

theorem own_bit_no_enemy {p : Position} (hDisj : ∀ pt1 < 7, ∀ pt2 < 7,
      p.pieces p.side pt1 &&& p.pieces (p.side ^^^ 1) pt2 = 0)
    {s pt0 : Nat} (hpt0 : pt0 < 7)
    (hown : (p.pieces p.side pt0).testBit s = true) :
    (enemyOccupancy p).testBit s = false := by
  have key : ∀ pt2, pt2 < 7 → (p.pieces (p.side ^^^ 1) pt2).testBit s = false := by
    intro pt2 h2
    by_contra hcon
    have hbit : (p.pieces (p.side ^^^ 1) pt2).testBit s = true := by
      cases hb : (p.pieces (p.side ^^^ 1) pt2).testBit s
      · exact absurd hb hcon
      · rfl
    have : (p.pieces p.side pt0 &&& p.pieces (p.side ^^^ 1) pt2).testBit s = true := by
      rw [Nat.testBit_and, hown, hbit]; rfl
    rw [hDisj pt0 hpt0 pt2 h2] at this
    rw [Nat.zero_testBit] at this
    exact Bool.false_ne_true this
  simp only [enemyOccupancy, Nat.testBit_or,
    key PAWN (by decide), key KNIGHT (by decide), key BISHOP (by decide),
    key ROOK (by decide), key QUEEN (by decide), key KING (by decide), Bool.or_false]

theorem not_occupied_no_enemy {p : Position} (hSide : p.side = WHITE ∨ p.side = BLACK)
    (hOcc : p.occupied = occupancyOf p) {t : Nat}
    (h : p.occupied.testBit t = false) : (enemyOccupancy p).testBit t = false := by
  cases hb : (enemyOccupancy p).testBit t
  · rfl
  · rw [enemy_subset_occ hSide hOcc hb] at h
    exact absurd h (by simp)

theorem emptyBB_not_occupied {p : Position} {t : Nat} (ht : t < 64)
    (h : (U64MASK ^^^ p.occupied).testBit t = true) : p.occupied.testBit t = false := by
  rw [Nat.testBit_xor] at h
  have hm : U64MASK.testBit t = true := by
    rw [show U64MASK = 2 ^ 64 - 1 from rfl, Nat.testBit_two_pow_sub_one]
    exact decide_eq_true ht
  rw [hm] at h
  cases hocc : p.occupied.testBit t
  · rfl
  · rw [hocc] at h; exact absurd h (by decide)

/-- Capture destinations make the claim predicate true. -/
theorem capture_pred_true {p : Position} {fromS t : Nat} (ht : t < 64)
    (hbit : (enemyOccupancy p).testBit t = true) :
    isCaptureOrEp p (mkMove fromS t) = true := by
  unfold isCaptureOrEp
  rw [toSq_mkMove ht, hbit, Bool.true_or]

/-- Quiet destinations (empty squares) make the claim predicate false. -/
theorem quiet_pred_false {p : Position} (hSide : p.side = WHITE ∨ p.side = BLACK)
    (hOcc : p.occupied = occupancyOf p) {fromS t : Nat} (hf : fromS < 64) (ht : t < 64)
    (hocc : p.occupied.testBit t = false) :
    isCaptureOrEp p (mkMove fromS t) = false := by
  unfold isCaptureOrEp
  rw [toSq_mkMove ht, not_occupied_no_enemy hSide hOcc hocc,
    isEnPassant_mkMove hf ht, Bool.or_false]

/-- Filtering the full output of one non-pawn piece's block by the capture
predicate leaves exactly the captures-only output. -/
theorem filter_pieceBlockMoves {p : Position} (hSide : p.side = WHITE ∨ p.side = BLACK)
    (hOcc : p.occupied = occupancyOf p) {fromS : Nat} (hf : fromS < 64) (attacks : Nat) :
    (pieceBlockMoves false fromS attacks (theirPiecesNoKing p)
        (U64MASK ^^^ p.occupied)).filter (isCaptureOrEp p)
      = pieceBlockMoves true fromS attacks (theirPiecesNoKing p) (U64MASK ^^^ p.occupied) := by
  unfold pieceBlockMoves
  simp only [Bool.false_eq_true, if_false, if_true, ite_true, ite_false]
  rw [List.filter_append]
  have hcaps : ((serializeBB (attacks &&& theirPiecesNoKing p)).map
      (mkMove fromS)).filter (isCaptureOrEp p)
      = (serializeBB (attacks &&& theirPiecesNoKing p)).map (mkMove fromS) := by
    apply List.filter_eq_self.mpr
    intro a ha
    obtain ⟨t, ht, rfl⟩ := List.mem_map.mp ha
    obtain ⟨ht64, htb⟩ := mem_serializeBB.mp ht
    rw [Nat.testBit_and, Bool.and_eq_true] at htb
    exact capture_pred_true ht64 (tnk_subset_enemy htb.2)
  have hquiet : ((serializeBB (attacks &&& (U64MASK ^^^ p.occupied))).map
      (mkMove fromS)).filter (isCaptureOrEp p) = [] := by
    apply List.filter_eq_nil_iff.mpr
    intro a ha
    obtain ⟨t, ht, rfl⟩ := List.mem_map.mp ha
    obtain ⟨ht64, htb⟩ := mem_serializeBB.mp ht
    rw [Nat.testBit_and, Bool.and_eq_true] at htb
    rw [quiet_pred_false hSide hOcc hf ht64 (emptyBB_not_occupied ht64 htb.2)]
    exact Bool.false_ne_true
  rw [hcaps, hquiet, List.append_nil]

theorem capture_pred_true_flagged {p : Position} {f t flag : Nat} (ht : t < 64)
    (hfl : flag % 64 = 0) (hbit : (enemyOccupancy p).testBit t = true) :
    isCaptureOrEp p (mkMove f t ||| flag) = true := by
  unfold isCaptureOrEp
  rw [toSq_orFlag ht hfl, hbit, Bool.true_or]

theorem mkPromotion_queen (f t : Nat) : mkPromotion f t QUEEN = mkMove f t ||| PROMO_QUEEN := rfl

theorem mkPromotion_rook (f t : Nat) : mkPromotion f t ROOK = mkMove f t ||| PROMO_ROOK := rfl

theorem mkPromotion_bishop (f t : Nat) : mkPromotion f t BISHOP = mkMove f t ||| PROMO_BISHOP :=
  rfl

theorem mkPromotion_knight (f t : Nat) : mkPromotion f t KNIGHT = mkMove f t ||| PROMO_KNIGHT :=
  rfl

/-- With `captures_only` set, the pawn push block emits nothing. -/
theorem pawnPushes_capturesOnly (p : Position) (us fromS : Nat) :
    pawnPushes p true us fromS = [] := by
  unfold pawnPushes pawnPushesAux
  simp

/-- Every element of the pawn push block is a plain or promotion move onto a
board-empty square below 64. -/
theorem pawnPushes_dest_empty {p : Position} {us fromS m : Nat} {forward : Int}
    {promoRank : Nat} (hfwd : forward = if us = WHITE then 8 else -8)
    (hm : m ∈ pawnPushesAux p false us fromS forward promoRank) :
    ∃ tN : Nat, tN < 64 ∧ p.boardGet tN = 0 ∧
      (m = mkMove fromS tN ∨ m = mkMove fromS tN ||| PROMO_QUEEN ∨
       m = mkMove fromS tN ||| PROMO_ROOK ∨ m = mkMove fromS tN ||| PROMO_BISHOP ∨
       m = mkMove fromS tN ||| PROMO_KNIGHT) := by
  unfold pawnPushesAux at hm
  split at hm
  case isFalse => exact absurd hm (List.not_mem_nil m)
  case isTrue hcond =>
    obtain ⟨-, hge, hlt, hboard⟩ := hcond
    have ht64 : ((fromS : Int) + forward).toNat < 64 := by omega
    split at hm
    · simp only [mkPromotion_queen, mkPromotion_rook, mkPromotion_bishop, mkPromotion_knight,
        List.mem_cons, List.not_mem_nil, or_false] at hm
      exact ⟨((fromS : Int) + forward).toNat, ht64, hboard, by tauto⟩
    · simp only [List.mem_cons] at hm
      rcases hm with rfl | hm
      · exact ⟨((fromS : Int) + forward).toNat, ht64, hboard, Or.inl rfl⟩
      · split at hm
        case isFalse => exact absurd hm (List.not_mem_nil m)
        case isTrue hrank =>
          split at hm
          case isFalse => exact absurd hm (List.not_mem_nil m)
          case isTrue hb2 =>
            simp only [List.mem_singleton] at hm
            subst hm
            refine ⟨((fromS : Int) + 2 * forward).toNat, ?_, hb2, Or.inl rfl⟩
            -- the double push exists only from the second (resp. seventh) rank
            have hdiv : rankOf fromS = fromS / 8 := by
              unfold rankOf
              rw [Nat.shiftRight_eq_div_pow]
            rcases hrank with ⟨hs, hr⟩ | ⟨hs, hr⟩
            · rw [hdiv] at hr
              rw [hs, if_pos rfl] at hfwd
              omega
            · rw [hdiv] at hr
              rw [hs, if_neg (by decide : ¬ (BLACK = WHITE))] at hfwd
              omega

/-- Pawn pushes land on board-empty squares, so the capture predicate rejects
them all. -/
theorem filter_pawnPushes {p : Position} (inv : GenInv p) {fromS : Nat} (hf : fromS < 64) :
    (pawnPushes p false p.side fromS).filter (isCaptureOrEp p) = [] := by
  apply List.filter_eq_nil_iff.mpr
  intro m hm
  obtain ⟨tN, ht64, hboard, hcases⟩ := pawnPushes_dest_empty rfl hm
  have henemy : (enemyOccupancy p).testBit tN = false :=
    not_occupied_no_enemy inv.side01 inv.occEq ((inv.boardMatch tN ht64).mp hboard)
  have hplain : isCaptureOrEp p (mkMove fromS tN) = false := by
    unfold isCaptureOrEp
    rw [toSq_mkMove ht64, henemy, isEnPassant_mkMove hf ht64, Bool.or_false]
  have hflag : ∀ flag : Nat, flag % 64 = 0 → flag &&& 0xF000 = flag → flag ≠ ENPASSANT_FLAG →
      isCaptureOrEp p (mkMove fromS tN ||| flag) = false := by
    intro flag h1 h2 h3
    unfold isCaptureOrEp
    rw [toSq_orFlag ht64 h1, henemy, isEnPassant_flagged hf ht64 h2, Bool.false_or,
      decide_eq_false h3]
  rcases hcases with rfl | rfl | rfl | rfl | rfl
  · rw [hplain]; exact Bool.false_ne_true
  · rw [hflag PROMO_QUEEN (by decide) (by decide) (by decide)]; exact Bool.false_ne_true
  · rw [hflag PROMO_ROOK (by decide) (by decide) (by decide)]; exact Bool.false_ne_true
  · rw [hflag PROMO_BISHOP (by decide) (by decide) (by decide)]; exact Bool.false_ne_true
  · rw [hflag PROMO_KNIGHT (by decide) (by decide) (by decide)]; exact Bool.false_ne_true

/-- Every pawn diagonal capture (including capture-promotions) lands on an
enemy-occupied square, so the capture predicate keeps it. -/
theorem filter_pawnCaps {p : Position} {fromS promoRank : Nat} :
    (pawnCapsAux p.side fromS (theirPiecesNoKing p) promoRank).filter (isCaptureOrEp p)
      = pawnCapsAux p.side fromS (theirPiecesNoKing p) promoRank := by
  apply List.filter_eq_self.mpr
  intro m hm
  unfold pawnCapsAux at hm
  obtain ⟨t, ht, hmm⟩ := List.mem_flatMap.mp hm
  obtain ⟨ht64, htb⟩ := mem_serializeBB.mp ht
  rw [Nat.testBit_and, Bool.and_eq_true] at htb
  have henemy := tnk_subset_enemy htb.2
  have hmm2 : m ∈ (if promoRank &&& bitAt t ≠ 0 then
      [mkPromotion fromS t QUEEN, mkPromotion fromS t ROOK,
       mkPromotion fromS t BISHOP, mkPromotion fromS t KNIGHT]
    else [mkMove fromS t]) := hmm
  split at hmm2
  · simp only [mkPromotion_queen, mkPromotion_rook, mkPromotion_bishop, mkPromotion_knight,
      List.mem_cons, List.not_mem_nil, or_false] at hmm2
    rcases hmm2 with rfl | rfl | rfl | rfl <;>
      exact capture_pred_true_flagged ht64 (by decide) henemy
  · simp only [List.mem_singleton] at hmm2
    subst hmm2
    exact capture_pred_true ht64 henemy

/-- The en-passant move carries the en-passant flag, so the capture predicate
keeps it. -/
theorem filter_pawnEp {p : Position} (inv : GenInv p) {fromS : Nat} (hf : fromS < 64) :
    (pawnEp p p.side fromS).filter (isCaptureOrEp p) = pawnEp p p.side fromS := by
  apply List.filter_eq_self.mpr
  intro m hm
  unfold pawnEp at hm
  split at hm
  case isTrue hcond =>
    simp only [List.mem_singleton] at hm
    subst hm
    have hep64 : p.epSquare.toNat < 64 := by
      rcases inv.epRange with h | h
      · exact absurd h hcond.1
      · omega
    unfold isCaptureOrEp
    rw [isEnPassant_flagged hf hep64 (by decide)]
    simp
  case isFalse => exact absurd hm (List.not_mem_nil m)

theorem filter_pawnBlockMoves {p : Position} (inv : GenInv p) {fromS : Nat} (hf : fromS < 64) :
    (pawnBlockMoves p false p.side fromS (theirPiecesNoKing p)).filter (isCaptureOrEp p)
      = pawnBlockMoves p true p.side fromS (theirPiecesNoKing p) := by
  unfold pawnBlockMoves pawnCaps
  rw [List.filter_append, List.filter_append, filter_pawnPushes inv hf, filter_pawnCaps,
    filter_pawnEp inv hf, pawnPushes_capturesOnly, List.nil_append]

theorem testBit_of_and_bit_ne_zero {x s : Nat} (h : x &&& bitAt s ≠ 0) :
    x.testBit s = true := by
  by_contra hcon
  have hbit : x.testBit s = false := by
    cases hb : x.testBit s
    · rfl
    · exact absurd hb hcon
  apply h
  apply Nat.eq_of_testBit_eq
  intro i
  rw [Nat.testBit_and, Nat.zero_testBit]
  have h2 : bitAt s = 2 ^ s := by rw [bitAt, Nat.shiftLeft_eq, Nat.one_mul]
  rw [h2, Nat.testBit_two_pow]
  rcases eq_or_ne s i with rfl | hne
  · rw [hbit, Bool.false_and]
  · simp [hne]

theorem bit_lt_64 {x s : Nat} (hlt : x < 2 ^ 64) (h : x.testBit s = true) : s < 64 := by
  by_contra hcon
  rw [Nat.testBit_lt_two_pow
    (lt_of_lt_of_le hlt (Nat.pow_le_pow_right (by norm_num) (le_of_not_lt hcon)))] at h
  exact Bool.false_ne_true h

theorem mem_ite_singleton {α : Type} {c : Prop} [Decidable c] {a m : α}
    (hm : m ∈ (if c then [a] else ([] : List α))) : m = a ∧ c := by
  split at hm
  · next h => exact ⟨List.mem_singleton.mp hm, h⟩
  · exact absurd hm (List.not_mem_nil m)

/-- Every castling candidate's destination square is empty, the castling rook's
own square, or the king's own square, so the capture predicate rejects it. -/
theorem castleSideAux_filter {p : Position} (inv : GenInv p)
    {them ksq rookSq kingDest rookDest : Nat}
    (hksq : (p.pieces p.side KING).testBit ksq = true)
    (hrook : (p.pieces p.side ROOK).testBit rookSq = true)
    (hk64 : ksq < 64) (hkd64 : kingDest < 64) :
    (castleSideAux p them ksq rookSq kingDest rookDest).filter (isCaptureOrEp p) = [] := by
  apply List.filter_eq_nil_iff.mpr
  intro m hm
  unfold castleSideAux at hm
  obtain ⟨rfl, hcond⟩ := mem_ite_singleton hm
  rw [Bool.and_eq_true, Bool.and_eq_true] at hcond
  obtain ⟨⟨hkingPath, -⟩, -⟩ := hcond
  have henemy : (enemyOccupancy p).testBit kingDest = false := by
    by_cases hkk : kingDest = ksq
    · subst hkk
      exact own_bit_no_enemy inv.disj (by decide) hksq
    · rw [if_pos hkk] at hkingPath
      rw [Bool.and_eq_true, Bool.and_eq_true] at hkingPath
      obtain ⟨⟨-, hdest⟩, -⟩ := hkingPath
      rw [decide_eq_true_eq] at hdest
      rcases hdest with hempty | hrsq
      · exact not_occupied_no_enemy inv.side01 inv.occEq
          ((inv.boardMatch kingDest hkd64).mp hempty)
      · subst hrsq
        exact own_bit_no_enemy inv.disj (by decide) hrook
  rw [show isCaptureOrEp p (mkMove ksq kingDest ||| CASTLE_FLAG) = false from ?_]
  · exact Bool.false_ne_true
  · unfold isCaptureOrEp
    rw [toSq_orFlag hkd64 (by decide), henemy, isEnPassant_flagged hk64 hkd64 (by decide),
      Bool.false_or]
    decide

theorem filter_castleSideMoves {p : Position} (inv : GenInv p)
    (hne : p.pieces p.side KING ≠ 0) {sideIdx : Nat} :
    (castleSideMoves p p.side (p.side ^^^ 1) (lsbIdx (p.pieces p.side KING)) sideIdx).filter
      (isCaptureOrEp p) = [] := by
  have hklt : p.pieces p.side KING < 2 ^ 64 := by
    rcases inv.side01 with hs | hs <;> rw [hs] <;>
      exact inv.piecesLt _ (by decide) KING (by decide)
  obtain ⟨hkbit, hk64⟩ := testBit_lsbIdx hne hklt
  unfold castleSideMoves
  split
  · rfl
  · split
    · rfl
    · next hslot hrookbit =>
      have hrook : (p.pieces p.side ROOK).testBit
          (p.castleRookSq p.side sideIdx).toNat = true :=
        testBit_of_and_bit_ne_zero hrookbit
      split
      · split
        · rfl
        · exact castleSideAux_filter inv hkbit hrook hk64
            (by unfold mkSquare; split <;> omega)
      · split
        · rfl
        · exact castleSideAux_filter inv hkbit hrook hk64
            (by unfold mkSquare; split <;> omega)

/-- C8: for every position satisfying the data-model invariants, the move list
produced by `generate_moves` with `captures_only = true` is exactly the
sublist of the full generation consisting of the moves whose destination
square is occupied by an enemy piece or that are en-passant captures — quiet
moves, double pushes, castling and non-capturing promotions appear only in the
full list, and every capture and en-passant move of the full list appears, in
order, in the captures-only list. -/
theorem c8_captures_only_subset (p : Position) (inv : GenInv p) :
    generateMoves p true = (generateMoves p false).filter (isCaptureOrEp p) := by
  have hN : ((serializeBB (p.pieces p.side KNIGHT)).flatMap
      (fun fromS => pieceBlockMoves false fromS (knightAttacks fromS)
        (theirPiecesNoKing p) (U64MASK ^^^ p.occupied))).filter (isCaptureOrEp p)
      = (serializeBB (p.pieces p.side KNIGHT)).flatMap
        (fun fromS => pieceBlockMoves true fromS (knightAttacks fromS)
          (theirPiecesNoKing p) (U64MASK ^^^ p.occupied)) := by
    rw [List.filter_flatMap]
    exact List.flatMap_congr fun fromS hf =>
      filter_pieceBlockMoves inv.side01 inv.occEq (mem_serializeBB.mp hf).1 _
  have hB : ((serializeBB (p.pieces p.side BISHOP)).flatMap
      (fun fromS => pieceBlockMoves false fromS (bishopAttacksMagic fromS p.occupied)
        (theirPiecesNoKing p) (U64MASK ^^^ p.occupied))).filter (isCaptureOrEp p)
      = (serializeBB (p.pieces p.side BISHOP)).flatMap
        (fun fromS => pieceBlockMoves true fromS (bishopAttacksMagic fromS p.occupied)
          (theirPiecesNoKing p) (U64MASK ^^^ p.occupied)) := by
    rw [List.filter_flatMap]
    exact List.flatMap_congr fun fromS hf =>
      filter_pieceBlockMoves inv.side01 inv.occEq (mem_serializeBB.mp hf).1 _
  have hR : ((serializeBB (p.pieces p.side ROOK)).flatMap
      (fun fromS => pieceBlockMoves false fromS (rookAttacksMagic fromS p.occupied)
        (theirPiecesNoKing p) (U64MASK ^^^ p.occupied))).filter (isCaptureOrEp p)
      = (serializeBB (p.pieces p.side ROOK)).flatMap
        (fun fromS => pieceBlockMoves true fromS (rookAttacksMagic fromS p.occupied)
          (theirPiecesNoKing p) (U64MASK ^^^ p.occupied)) := by
    rw [List.filter_flatMap]
    exact List.flatMap_congr fun fromS hf =>
      filter_pieceBlockMoves inv.side01 inv.occEq (mem_serializeBB.mp hf).1 _
  have hQ : ((serializeBB (p.pieces p.side QUEEN)).flatMap
      (fun fromS => pieceBlockMoves false fromS (queenAttacksMagic fromS p.occupied)
        (theirPiecesNoKing p) (U64MASK ^^^ p.occupied))).filter (isCaptureOrEp p)
      = (serializeBB (p.pieces p.side QUEEN)).flatMap
        (fun fromS => pieceBlockMoves true fromS (queenAttacksMagic fromS p.occupied)
          (theirPiecesNoKing p) (U64MASK ^^^ p.occupied)) := by
    rw [List.filter_flatMap]
    exact List.flatMap_congr fun fromS hf =>
      filter_pieceBlockMoves inv.side01 inv.occEq (mem_serializeBB.mp hf).1 _
  have hK : ((if p.pieces p.side KING ≠ 0 then
        pieceBlockMoves false (lsbIdx (p.pieces p.side KING))
          (kingAttacks (lsbIdx (p.pieces p.side KING))) (theirPiecesNoKing p)
          (U64MASK ^^^ p.occupied)
      else []) : List Nat).filter (isCaptureOrEp p)
      = (if p.pieces p.side KING ≠ 0 then
          pieceBlockMoves true (lsbIdx (p.pieces p.side KING))
            (kingAttacks (lsbIdx (p.pieces p.side KING))) (theirPiecesNoKing p)
            (U64MASK ^^^ p.occupied)
        else []) := by
    split
    · next hne =>
      have hklt : p.pieces p.side KING < 2 ^ 64 := by
        rcases inv.side01 with hs | hs <;> rw [hs] <;>
          exact inv.piecesLt _ (by decide) KING (by decide)
      exact filter_pieceBlockMoves inv.side01 inv.occEq (testBit_lsbIdx hne hklt).2 _
    · rfl
  have hP : ((serializeBB (p.pieces p.side PAWN)).flatMap
      (fun fromS => pawnBlockMoves p false p.side fromS (theirPiecesNoKing p))).filter
        (isCaptureOrEp p)
      = (serializeBB (p.pieces p.side PAWN)).flatMap
        (fun fromS => pawnBlockMoves p true p.side fromS (theirPiecesNoKing p)) := by
    rw [List.filter_flatMap]
    exact List.flatMap_congr fun fromS hf =>
      filter_pawnBlockMoves inv (mem_serializeBB.mp hf).1
  have hC : ((if ¬ (false : Bool) ∧ ¬ p.isCheck ∧ p.pieces p.side KING ≠ 0 then
        castleMovesGen p p.side (p.side ^^^ 1) (lsbIdx (p.pieces p.side KING))
      else []) : List Nat).filter (isCaptureOrEp p)
      = (if ¬ (true : Bool) ∧ ¬ p.isCheck ∧ p.pieces p.side KING ≠ 0 then
          castleMovesGen p p.side (p.side ^^^ 1) (lsbIdx (p.pieces p.side KING))
        else []) := by
    have hrhs : (if ¬ (true : Bool) ∧ ¬ p.isCheck ∧ p.pieces p.side KING ≠ 0 then
        castleMovesGen p p.side (p.side ^^^ 1) (lsbIdx (p.pieces p.side KING))
      else ([] : List Nat)) = [] := by
      rw [if_neg]
      rintro ⟨h1, -⟩
      simp at h1
    rw [hrhs]
    split
    · next hcond =>
      unfold castleMovesGen
      rw [List.filter_flatMap]
      have : ∀ a ∈ ([0, 1] : List Nat),
          (castleSideMoves p p.side (p.side ^^^ 1)
            (lsbIdx (p.pieces p.side KING)) a).filter (isCaptureOrEp p) = [] :=
        fun a _ => filter_castleSideMoves inv hcond.2.2
      rw [List.flatMap_congr this]
      rfl
    · rfl
  show _ = List.filter _ _
  unfold generateMoves
  rw [List.filter_append, List.filter_append, List.filter_append, List.filter_append,
    List.filter_append, List.filter_append]
  rw [hN, hB, hR, hQ, hK, hP, hC]

/-- Witness for C8: the invariants hold for the concrete position `c4Pos`
(kings e1/e8, white pawn e4, black pawn d4, black to move, en-passant square
e3), and the captures-only generation there is the filtered full generation
(it consists of exactly the d4xe3 en-passant capture). -/
theorem c8_captures_only_subset_witness :
    GenInv c4Pos ∧
    generateMoves c4Pos true = (generateMoves c4Pos false).filter (isCaptureOrEp c4Pos) := by
  have hinv : GenInv c4Pos :=
    ⟨by decide, by decide, by decide, by decide, by decide, by decide⟩
  exact ⟨hinv, c8_captures_only_subset c4Pos hinv⟩

/-- C3: the singular-extension block of negamax is unreachable.  First part:
for every input, whenever the prologue continues into the move loop, the
singular-extension search was not tried — because its guard requires `tt_hit`,
and on every transposition-table hit negamax has already returned (lines
2781-2796 return on all paths).  Second part: a concrete node at depth 8 with
an exact TT hit (depth 9 ≥ 8, stored best move, no excluded move, not in
check, score 44 far from mate) — exactly the situation in which the claim says
the engine searches the other moves at half depth with window tt_score − 50
and may extend — instead returns the stored score 44 immediately, and the
probe really is a hit carrying a best move at sufficient depth. -/
theorem c3_singular_extension_unreachable :
    (∀ (tt : TTable) (key : Nat) (depth alpha beta ply : Int) (excluded : Nat)
       (isRep inCheck : Bool) (staticEval : Int) (singularSearch : Int → Int → Int)
       (d : Int) (fired : Bool),
       negamaxPrologue tt key depth alpha beta ply excluded isRep inCheck staticEval
         singularSearch = NodeStep.proceed d fired → fired = false) ∧
    ((c3tt.probe 21 8 (max (-INF_SCORE) (-MATE_SCORE + 0))
        (min INF_SCORE (MATE_SCORE - 0 - 1)) 10 NO_MOVE 0).1 = true ∧
     (c3tt.probe 21 8 (max (-INF_SCORE) (-MATE_SCORE + 0))
        (min INF_SCORE (MATE_SCORE - 0 - 1)) 10 NO_MOVE 0).2.2.1 ≠ NO_MOVE ∧
     (8 : Int) ≥ SINGULAR_EXTENSION_DEPTH ∧
     negamaxPrologue c3tt 21 8 (-INF_SCORE) INF_SCORE 0 NO_MOVE false false 10
        (fun _ _ => 0) = NodeStep.ret 44) := by
  constructor
  · intro tt key depth alpha beta ply excluded isRep inCheck staticEval oracle d fired h
    unfold negamaxPrologue at h
    split at h
    · exact absurd h (by simp)
    · split at h
      · exact absurd h (by simp)
      · split at h
        · exact absurd h (by simp)
        · split at h
          next ttHit ttScore ttMove ttDtz heq =>
            split at h
            · split at h
              · exact absurd h (by simp)
              · split at h
                · exact absurd h (by simp)
                · split at h
                  · exact absurd h (by simp)
                  · exact absurd h (by simp)
            · next hnotHit =>
              split at h
              · exact absurd h (by simp)
              · split at h
                · next hguard => exact absurd hguard.1 hnotHit
                · split at h
                  · exact absurd h (by simp)
                  · rw [NodeStep.proceed.injEq] at h
                    exact h.2.symm
  · refine ⟨by decide, by decide, by decide, by decide⟩

/-- C9: side-symmetry of the evaluator fails. On the position white Ke1, Qb3,
black Ke8, white to move, the evaluator returns 980, while on the mirrored
position (black Ke8... reflected: white Ke1 turned black etc., black Qb6,
black to move) it returns 975: this is neither the claimed `-evaluate P`
(the evaluator's score is side-to-move-relative, so a color-symmetric
evaluator would satisfy `evaluate (mirror P) = +evaluate P`), nor even
`+evaluate P`, because `PST_QUEEN` is not left-right symmetric (index 17,
value 5, versus mirrored index 22, value 0) and Black's PST index is
`63 - sq`, a rotation rather than a vertical flip. -/
theorem c9_mirror_antisymmetry_fails :
    evaluate c9Pos 0 = 980 ∧
    evaluate (mirrorSpec c9Pos) 0 = 975 ∧
    evaluate (mirrorSpec c9Pos) 0 ≠ - evaluate c9Pos 0 ∧
    evaluate (mirrorSpec c9Pos) 0 ≠ evaluate c9Pos 0 := by
  refine ⟨by decide, by decide, by decide, by decide⟩

theorem mem_buildScored {excluded : Nat} {scoreFn : Nat → Nat → Int} :
    ∀ {l : List Nat} {i : Nat} {sm : Nat × Int},
      sm ∈ buildScored excluded scoreFn l i → sm.1 ∈ l
  | [], _, _, h => by simp [buildScored] at h
  | m :: rest, i, sm, h => by
    rw [buildScored] at h
    by_cases hm : m = excluded
    · rw [if_pos hm] at h
      exact List.mem_cons_of_mem _ (mem_buildScored h)
    · rw [if_neg hm] at h
      rcases List.mem_cons.1 h with h | h
      · rw [h]; exact List.mem_cons_self _ _
      · exact List.mem_cons_of_mem _ (mem_buildScored h)

theorem mem_sortedScored {p : Position} {excluded : Nat} {scoreFn : Nat → Nat → Int}
    {sm : Nat × Int} (h : sm ∈ sortedScored p excluded scoreFn) :
    sm.1 ∈ generateMoves p false :=
  mem_buildScored ((List.perm_insertionSort _ _).mem_iff.1 h)

theorem foldl_fixed {α β : Type} (f : β → α → β) (l : List α)
    (h : ∀ c a, a ∈ l → f c a = c) : ∀ c, l.foldl f c = c := by
  induction l with
  | nil => intro c; rfl
  | cons x xs ih =>
    intro c
    rw [List.foldl_cons, h c x (List.mem_cons_self x xs)]
    exact ih (fun c a ha => h c a (List.mem_cons_of_mem _ ha)) c

theorem multicutCount_zero (z : ZKeys) (p : Position) (depth beta ply : Int)
    (cut : Bool) (ttMove : Nat) (child : Position → Int → Int → Int → Int → Int)
    (sorted : List (Nat × Int))
    (h : ∀ sm ∈ sorted,
      isKingCaptureMove p sm.1 = true ∨ (p.makeMove z sm.1).moverInCheck = true) :
    multicutCount z p depth beta ply cut ttMove child sorted = 0 := by
  unfold multicutCount
  split
  · refine foldl_fixed _ _ (fun mc sm hsm => ?_) 0
    have hsm2 := h sm (List.take_subset 3 sorted hsm)
    by_cases h1 : sm.1 = ttMove
    · rw [if_pos h1]
    · rw [if_neg h1]
      by_cases h2 : isKingCaptureMove p sm.1 = true
      · rw [if_pos h2]
      · rw [if_neg h2]
        rw [if_pos (hsm2.resolve_left h2)]
  · rfl

theorem negamaxMoveLoop_skip (z : ZKeys) (p : Position)
    (depth beta ply staticEval : Int) (inCheck improving : Bool)
    (prevCaptured prevMove : Nat)
    (child : Position → Int → Int → Int → Int → Int) :
    ∀ (l : List (Nat × Int)),
      (∀ sm ∈ l,
        isKingCaptureMove p sm.1 = true ∨ (p.makeMove z sm.1).moverInCheck = true) →
      ∀ (i : Nat) (bestScore alpha : Int),
        negamaxMoveLoop z p depth beta ply staticEval inCheck improving prevCaptured
          prevMove child l i bestScore alpha =
        (if bestScore = -INF_SCORE then (if inCheck then -MATE_SCORE + ply else 0)
         else bestScore) := by
  intro l
  induction l with
  | nil => intro _ i bs a; rfl
  | cons sm rest ih =>
    intro h i bs a
    have hsm := h sm (List.mem_cons_self sm rest)
    have hrest := fun x hx => h x (List.mem_cons_of_mem sm hx)
    rw [negamaxMoveLoop]
    by_cases h1 : isKingCaptureMove p sm.1 = true
    · rw [if_pos h1]; exact ih hrest _ _ _
    · rw [if_neg h1]
      have h3 := hsm.resolve_left h1
      by_cases h2 : depth ≤ 3 ∧ inCheck = false ∧ p.boardGet (toSq sm.1) = 0 ∧
          staticEval + (SEE_QUIET_MARGIN + depth * 50 +
            (if sm.2 < 500000 then 4 * depth else 0)) ≤ a
      · rw [if_pos h2]; exact ih hrest _ _ _
      · rw [if_neg h2]
        by_cases h4 : p.boardGet (toSq sm.1) = 0 ∧ inCheck = false ∧ depth ≤ 7 ∧
            (i : Int) ≥ (LMP_BASE : Int) + depth * (LMP_FACTOR : Int) ∧
            (improving = false ∨
             (i : Int) ≥ (LMP_BASE : Int) + depth * (LMP_FACTOR : Int) * 2)
        · rw [if_pos h4]; exact ih hrest _ _ _
        · rw [if_neg h4]
          rw [if_pos h3]
          exact ih hrest _ _ _

theorem quiescenceLoop_skip (z : ZKeys) (p : Position)
    (beta ply qDepth standPat : Int)
    (child : Position → Int → Int → Int → Int → Int) :
    ∀ (l : List Nat),
      (∀ m ∈ l,
        isKingCaptureMove p m = true ∨ (p.makeMove z m).moverInCheck = true) →
      ∀ (lc : Nat) (alpha : Int),
        quiescenceLoop z p beta ply qDepth standPat true child l lc alpha =
        (if lc = 0 then -MATE_SCORE + ply else alpha) := by
  intro l
  induction l with
  | nil =>
    intro _ lc a
    rw [quiescenceLoop]
    by_cases h0 : lc = 0
    · rw [if_pos ⟨rfl, h0⟩, if_pos h0]
    · rw [if_neg (fun hc => h0 hc.2), if_neg h0]
  | cons m rest ih =>
    intro h lc a
    have hm := h m (List.mem_cons_self m rest)
    have hrest := fun x hx => h x (List.mem_cons_of_mem m hx)
    rw [quiescenceLoop]
    by_cases h1 : isKingCaptureMove p m = true
    · rw [if_pos h1]; exact ih hrest _ _
    · rw [if_neg h1]
      rw [if_neg (fun hc => absurd hc.1 (by simp))]
      rw [if_pos (hm.resolve_left h1)]
      exact ih hrest _ _

/-- C7: terminal-node scores. For `negamax` from the move-generation point:
whenever every pseudo-legal move is a king capture (skipped) or leaves the
mover in check (illegal), the returned score is `-MATE_SCORE + ply` when the
side to move is in check and 0 otherwise, for every key set, search
parameters, move-scoring function and child oracle. For `quiescence` at an
in-check node inside the ply and qsearch-depth limits with no repetition:
when every pseudo-legal move is a king capture or illegal, the returned score
is `-MATE_SCORE + ply`. -/
theorem c7_terminal_scores :
    (∀ (z : ZKeys) (p : Position) (depth alpha beta ply staticEval : Int)
       (cut improving : Bool) (excluded ttMove prevCaptured prevMove : Nat)
       (scoreFn : Nat → Nat → Int)
       (child : Position → Int → Int → Int → Int → Int),
      (∀ m ∈ generateMoves p false,
        isKingCaptureMove p m = true ∨ (p.makeMove z m).moverInCheck = true) →
      negamaxFromGeneration z p depth alpha beta ply cut excluded ttMove staticEval
        improving prevCaptured prevMove scoreFn child =
        (if p.isCheck then -MATE_SCORE + ply else 0)) ∧
    (∀ (z : ZKeys) (p : Position) (alpha beta ply qDepth : Int)
       (evalFn : Position → Int)
       (child : Position → Int → Int → Int → Int → Int),
      ply < MAX_PLY → qDepth < MAX_QSEARCH_DEPTH →
      p.isRepetition 2 = false → p.isCheck = true →
      (∀ m ∈ generateMoves p false,
        isKingCaptureMove p m = true ∨ (p.makeMove z m).moverInCheck = true) →
      quiescenceModel z p alpha beta ply qDepth evalFn child = -MATE_SCORE + ply) := by
  constructor
  · intro z p depth alpha beta ply staticEval cut improving excluded ttMove
      prevCaptured prevMove scoreFn child hmoves
    unfold negamaxFromGeneration
    by_cases h0 : (generateMoves p false).length = 0
    · rw [if_pos h0]
    · rw [if_neg h0]
      have hs : ∀ sm ∈ sortedScored p excluded scoreFn,
          isKingCaptureMove p sm.1 = true ∨ (p.makeMove z sm.1).moverInCheck = true :=
        fun sm hsm => hmoves sm.1 (mem_sortedScored hsm)
      rw [multicutCount_zero z p depth beta ply cut ttMove child _ hs]
      rw [if_neg (by decide : ¬ ((0 : Nat) ≥ 2))]
      rw [negamaxMoveLoop_skip z p depth beta ply staticEval p.isCheck improving
        prevCaptured prevMove child _ hs 0 (-INF_SCORE) alpha]
      rw [if_pos rfl]
  · intro z p alpha beta ply qDepth evalFn child hply hq hrep hchk hmoves
    unfold quiescenceModel
    rw [if_neg (by rintro (h | h) <;> omega)]
    rw [if_neg (by rw [hrep]; exact Bool.false_ne_true)]
    rw [if_neg (fun hc => absurd (hchk.symm.trans hc.1) (by decide))]
    rw [hchk]
    have hlist : ∀ m ∈ (generateMoves p (!true)).insertionSort
        (fun a b => p.see b ≤ p.see a),
        isKingCaptureMove p m = true ∨ (p.makeMove z m).moverInCheck = true := by
      intro m hm
      exact hmoves m ((List.perm_insertionSort _ _).mem_iff.1 hm)
    rw [quiescenceLoop_skip z p beta ply qDepth (evalFn p) child _ hlist 0 _]
    rw [if_pos rfl]

theorem c7_terminal_scores_witness :
    negamaxFromGeneration zeroKeys c7StalePos 5 (-100) 100 3 false 0 0 0 false 0 0
      (fun _ _ => 0) (fun _ _ _ _ _ => 0) = 0 ∧
    quiescenceModel zeroKeys c7MatePos (-100) 100 3 0 (fun _ => 0)
      (fun _ _ _ _ _ => 0) = -MATE_SCORE + 3 :=
  ⟨(c7_terminal_scores.1 zeroKeys c7StalePos 5 (-100) 100 3 0 false false 0 0 0 0
      (fun _ _ => 0) (fun _ _ _ _ _ => 0) (by decide)).trans (by decide),
   c7_terminal_scores.2 zeroKeys c7MatePos (-100) 100 3 0 (fun _ => 0)
      (fun _ _ _ _ _ => 0) (by decide) (by decide) (by decide) (by decide) (by decide)⟩
